import Mathlib

/-!
# `time_rotating` resource of terraform-provider-time

A shallow embedding of `internal/provider/resource_time_rotating.go` together with the
part of the Go standard library `time` package (as of Go 1.18, 64-bit `int`) that the
resource calls: `Date`, `AddDate`, `Add`, `Unix`, the civil-field accessors, and
`Parse` / `Format` specialised to the layout `time.RFC3339`
(`"2006-01-02T15:04:05Z07:00"`).

Conventions of the embedding:

* Go `int`, `int64`, `uint64` values are Lean `Int`s; every operation that can leave the
  machine range is wrapped explicitly with `i64` / `u64`.
* A Go `string` is a Lean `String`; the parser walks its characters.  Every byte that
  `time.Parse` accepts for this layout is ASCII, so walking characters and walking bytes
  accept the same inputs.
* A `time.Time` is its wall-clock reading (seconds since January 1, year 1 UTC,
  nanoseconds) and its `Location`.  The monotonic reading is not modelled: both ways in
  which `Create` obtains a timestamp (`time.Now().UTC()` and `time.Parse`) strip it.
* The process-wide `time.Local` is an explicit parameter `localLoc` of `Parse` and of
  everything that calls it.
-/

namespace TimeRotating

/-! ## Machine integers -/

/-- Conversion to Go `int64` (and 64-bit `int`): two's-complement wrap-around. -/
def i64 (x : Int) : Int :=
  (x + 9223372036854775808) % 18446744073709551616 - 9223372036854775808

/-- Conversion to Go `uint64` (and 64-bit `uint`). -/
def u64 (x : Int) : Int := x % 18446744073709551616

/-! ## Package `time`: constants -/

def secondsPerMinute : Int := 60
def secondsPerHour : Int := 3600
def secondsPerDay : Int := 86400
def daysPer400Years : Int := 146097
def daysPer100Years : Int := 36524
def daysPer4Years : Int := 1461

/-- The year of the zero instant of the `abs` scale; `absoluteZeroYear - 1` is a multiple
of 400. -/
def absoluteZeroYear : Int := -292277022399

/-- Go: `(absoluteZeroYear - internalYear) * 365.2425 * secondsPerDay`. -/
def absoluteToInternal : Int := -9223371966579724800
def internalToAbsolute : Int := 9223371966579724800

/-- Go: `(1969*365 + 1969/4 - 1969/100 + 1969/400) * secondsPerDay`. -/
def unixToInternal : Int := 62135596800
def internalToUnix : Int := -62135596800

/-- Go `time.Nanosecond .. time.Hour`, values of type `Duration` (an `int64` of
nanoseconds). -/
def Second : Int := 1000000000
def Minute : Int := 60 * Second
def Hour : Int := 60 * Minute

/-- Smallest and largest `int64`, the bounds of every zone span (`alpha`, `omega`). -/
def alpha : Int := -9223372036854775808
def omega : Int := 9223372036854775807

/-! ## Package `time`: locations -/

/-- What `(*Location).lookup` returns for an instant: the offset in seconds east of UTC and
the span `[start, end)` of Unix seconds over which that offset is in force.  Zone names
and the DST flag are left out: the RFC3339 layout neither prints nor reads them. -/
structure zoneSpan where
  offset : Int
  start : Int
  stop : Int

/-- A `*time.Location`, represented by its `lookup` method. -/
structure Location where
  lookup : Int → zoneSpan

/-- Go `time.UTC`; also what a nil `*Location` stands for. -/
def UTC : Location := ⟨fun _ => ⟨0, alpha, omega⟩⟩

/-- Go `time.FixedZone(name, offset)`: one zone, in force for all time. -/
def FixedZone (offset : Int) : Location := ⟨fun _ => ⟨offset, alpha, omega⟩⟩

/-! ## Package `time`: civil calendar -/

/-- Go `isLeap`.  The divisibility tests agree for `%` rounding towards zero and `%`
rounding down. -/
def isLeap (year : Int) : Bool :=
  year % 4 == 0 && (year % 100 != 0 || year % 400 == 0)

/-- Go table `daysBefore`: `daysBefore i` is the number of days in a non-leap year before
month `i + 1`. -/
def daysBefore (i : Int) : Int :=
  if i = 0 then 0
  else if i = 1 then 31
  else if i = 2 then 59
  else if i = 3 then 90
  else if i = 4 then 120
  else if i = 5 then 151
  else if i = 6 then 181
  else if i = 7 then 212
  else if i = 8 then 243
  else if i = 9 then 273
  else if i = 10 then 304
  else if i = 11 then 334
  else 365

/-- Go `daysIn(m, year)`. -/
def daysIn (m year : Int) : Int :=
  if m = 2 ∧ isLeap year = true then 29
  else daysBefore m - daysBefore (m - 1)

/-- Go `norm(hi, lo, base)`: bring `lo` into `[0, base)`, carrying into `hi`. -/
def norm (hi lo base : Int) : Int × Int :=
  let p : Int × Int :=
    if lo < 0 then
      let n := i64 (Int.tdiv (i64 (i64 (-lo) - 1)) base + 1)
      (i64 (hi - n), i64 (lo + i64 (n * base)))
    else (hi, lo)
  if p.2 ≥ base then
    let n := Int.tdiv p.2 base
    (i64 (p.1 + n), i64 (p.2 - i64 (n * base)))
  else p

/-- Go `daysSinceEpoch(year)`: days from the start of `absoluteZeroYear` to the start of
`year`, as a `uint64`. -/
def daysSinceEpoch (year : Int) : Int :=
  let y := u64 (i64 (year - absoluteZeroYear))
  let n400 := y / 400
  let y1 := y - 400 * n400
  let d1 := u64 (daysPer400Years * n400)
  let n100 := y1 / 100
  let y2 := y1 - 100 * n100
  let d2 := u64 (d1 + daysPer100Years * n100)
  let n4 := y2 / 4
  let y3 := y2 - 4 * n4
  let d3 := u64 (d2 + daysPer4Years * n4)
  u64 (d3 + 365 * y3)

/-- Go `absDate(abs, true)`: year, month, day of month and zero-based day of year of the
instant `abs` (a `uint64` number of seconds since the start of `absoluteZeroYear`).  All
intermediate values are bounded by `abs`, so nothing here can wrap; `n >> 2` on the
unsigned `n` is `n / 4`. -/
def absDate (abs : Int) : Int × Int × Int × Int :=
  let d := abs / secondsPerDay
  let n := d / daysPer400Years
  let y := 400 * n
  let d := d - daysPer400Years * n
  let n := d / daysPer100Years
  let n := n - n / 4
  let y := y + 100 * n
  let d := d - daysPer100Years * n
  let n := d / daysPer4Years
  let y := y + 4 * n
  let d := d - daysPer4Years * n
  let n := d / 365
  let n := n - n / 4
  let y := y + n
  let d := d - 365 * n
  let year := i64 (y + absoluteZeroYear)
  let yday := d
  if isLeap year = true ∧ yday = 31 + 29 - 1 then (year, 2, 29, yday)
  else
    let day := if isLeap year = true ∧ yday > 31 + 29 - 1 then yday - 1 else yday
    let month := day / 31
    let stop := daysBefore (month + 1)
    if day ≥ stop then (year, month + 1 + 1, day - stop + 1, yday)
    else (year, month + 1, day - daysBefore month + 1, yday)

/-- Go `absClock(abs)`: hour, minute and second within the day. -/
def absClock (abs : Int) : Int × Int × Int :=
  let sec := abs % secondsPerDay
  let hour := sec / secondsPerHour
  let sec := sec - hour * secondsPerHour
  let min := sec / secondsPerMinute
  let sec := sec - min * secondsPerMinute
  (hour, min, sec)

/-! ## Package `time`: `Time` -/

/-- A `time.Time` without monotonic reading: `sec` is Go's `t.sec()` (seconds since
January 1, year 1 00:00:00 UTC, an `int64`), `nsec` is `t.nsec()` in `[0, 999999999]`,
`loc` is `t.Location()`. -/
structure Time where
  sec : Int
  nsec : Int
  loc : Location

/-- The zero `time.Time{}`: January 1, year 1, 00:00:00 UTC. -/
def Time.zero : Time := ⟨0, 0, UTC⟩

/-- Go `(*Time).unixSec`. -/
def Time.unixSec (t : Time) : Int := i64 (t.sec + internalToUnix)

/-- Go `Time.Unix`. -/
def Time.Unix (t : Time) : Int := t.unixSec

/-- Go `Time.locabs`: the zone offset in force at `t` and `t` on the `abs` scale, shifted
by that offset.  (Go skips the lookup for `UTC`, whose lookup yields offset 0.) -/
def Time.locabs (t : Time) : Int × Int :=
  let sec := t.unixSec
  let offset := (t.loc.lookup sec).offset
  let sec := i64 (sec + offset)
  (offset, u64 (i64 (sec + i64 (unixToInternal + internalToAbsolute))))

/-- Go `Time.abs`. -/
def Time.abs (t : Time) : Int := t.locabs.2

/-- Go `Time.Date`. -/
def Time.Date (t : Time) : Int × Int × Int :=
  let r := absDate t.abs
  (r.1, r.2.1, r.2.2.1)

def Time.Year (t : Time) : Int := (absDate t.abs).1
def Time.Month (t : Time) : Int := (absDate t.abs).2.1
def Time.Day (t : Time) : Int := (absDate t.abs).2.2.1

/-- Go `Time.Clock`. -/
def Time.Clock (t : Time) : Int × Int × Int := absClock t.abs

/-- Go `Time.Hour`: `int(t.abs()%secondsPerDay) / secondsPerHour`. -/
def Time.Hour (t : Time) : Int := (t.abs % secondsPerDay) / secondsPerHour

/-- Go `Time.Minute`. -/
def Time.Minute (t : Time) : Int := (t.abs % secondsPerHour) / secondsPerMinute

/-- Go `Time.Second`. -/
def Time.Second (t : Time) : Int := t.abs % secondsPerMinute

/-- Go `Time.UTC`: same instant, location UTC. -/
def Time.toUTC (t : Time) : Time := { t with loc := UTC }

/-- Go `(*Time).addSec` for a time without monotonic reading: the sum saturates instead of
wrapping. -/
def Time.addSec (t : Time) (d : Int) : Time :=
  let sum := i64 (t.sec + d)
  if decide (sum > t.sec) = decide (d > 0) then { t with sec := sum }
  else if d > 0 then { t with sec := 9223372036854775807 }
  else { t with sec := -9223372036854775807 }

/-- Go `Time.Add(d)` for a `Duration` `d` (an `int64` of nanoseconds); `/` and `%` round
towards zero. -/
def Time.Add (t : Time) (d : Int) : Time :=
  let dsec := Int.tdiv d 1000000000
  let nsec := t.nsec + Int.tmod d 1000000000
  if nsec ≥ 1000000000 then
    ({ t with nsec := nsec - 1000000000 } : Time).addSec (dsec + 1)
  else if nsec < 0 then
    ({ t with nsec := nsec + 1000000000 } : Time).addSec (dsec - 1)
  else
    ({ t with nsec := nsec } : Time).addSec dsec

/-- Go `time.Date(year, month, day, hour, min, sec, nsec, loc)`. -/
def Date (year month day hour min sec nsec : Int) (loc : Location) : Time :=
  -- Normalize month, overflowing into year.
  let m := i64 (month - 1)
  let ym := norm year m 12
  let year := ym.1
  let month := ym.2 + 1
  -- Normalize nsec, sec, min, hour, overflowing into day.
  let sn := norm sec nsec 1000000000
  let ms := norm min sn.1 60
  let hm := norm hour ms.1 60
  let dh := norm day hm.1 24
  let nsec := sn.2
  let sec := ms.2
  let min := hm.2
  let hour := dh.2
  let day := dh.1
  -- Compute days since the absolute epoch.
  let d := daysSinceEpoch year
  -- Add in days before this month.
  let d := u64 (d + daysBefore (month - 1))
  let d := if isLeap year = true ∧ month ≥ 3 then u64 (d + 1) else d
  -- Add in days before today.
  let d := u64 (d + u64 (i64 (day - 1)))
  -- Add in time elapsed today.
  let abs := u64 (d * secondsPerDay)
  let abs := u64 (abs + u64 (hour * secondsPerHour + min * secondsPerMinute + sec))
  let unix := i64 (i64 abs + i64 (absoluteToInternal + internalToUnix))
  -- Look for zone offset for expected time, so we can adjust to UTC.
  let z := loc.lookup unix
  let unix :=
    if z.offset ≠ 0 then
      let utc := i64 (unix - z.offset)
      let offset :=
        if utc < z.start ∨ utc ≥ z.stop then (loc.lookup utc).offset else z.offset
      i64 (unix - offset)
    else unix
  -- Go: `unixTime(unix, int32(nsec))`, then `setLoc(loc)`.
  ⟨i64 (unix + unixToInternal), nsec, loc⟩

/-- Go `Time.AddDate(years, months, days)`. -/
def Time.AddDate (t : Time) (years months days : Int) : Time :=
  let ymd := t.Date
  let hms := t.Clock
  TimeRotating.Date (i64 (ymd.1 + years)) (i64 (ymd.2.1 + months)) (i64 (ymd.2.2 + days))
    hms.1 hms.2.1 hms.2.2 t.nsec t.loc

/-! ## Package `time`: formatting with layout `RFC3339` -/

/-- The byte `'0' + d` for a decimal digit `d`. -/
def digitChar (d : Int) : Char := Char.ofNat (48 + d.toNat)

/-- The loop of Go `appendInt` that assembles the decimal digits of the unsigned `u`, most
significant first.  The fuel bounds the number of digits; a `uint64` has at most 20. -/
def decimal : Nat → Int → List Char
  | 0, _ => []
  | fuel + 1, u =>
    if u ≥ 10 then decimal fuel (u / 10) ++ [digitChar (u - (u / 10) * 10)]
    else [digitChar u]

/-- Go `appendInt(b, x, width)`: append `x` in decimal, zero-padded to `width` digits, with
a leading minus sign when negative. -/
def appendInt (b : List Char) (x : Int) (width : Nat) : List Char :=
  let b := if x < 0 then b ++ ['-'] else b
  let u := if x < 0 then u64 (-x) else u64 x
  let ds := decimal 20 u
  b ++ List.replicate (width - ds.length) '0' ++ ds

/-- The `Z07:00` element of Go `Time.AppendFormat`: `Z` for offset 0, else sign, hours,
colon, minutes of the offset. -/
def appendZone (b : List Char) (offset : Int) : List Char :=
  if offset = 0 then b ++ ['Z']
  else
    let zone := Int.tdiv offset 60
    let b := if zone < 0 then b ++ ['-'] else b ++ ['+']
    let zone := if zone < 0 then i64 (-zone) else zone
    let b := appendInt b (Int.tdiv zone 60) 2
    let b := b ++ [':']
    appendInt b (Int.tmod zone 60) 2

/-- Go `t.Format(time.RFC3339)`: the civil fields of `t` in its own location, then the
zone offset of that location at `t`. -/
def Time.Format (t : Time) : String :=
  let la := t.locabs
  let ymd := absDate la.2
  let hms := absClock la.2
  let b := appendInt [] ymd.1 4
  let b := appendInt (b ++ ['-']) ymd.2.1 2
  let b := appendInt (b ++ ['-']) ymd.2.2.1 2
  let b := appendInt (b ++ ['T']) hms.1 2
  let b := appendInt (b ++ [':']) hms.2.1 2
  let b := appendInt (b ++ [':']) hms.2.2 2
  String.mk (appendZone b la.1)

/-! ## Package `time`: parsing with layout `RFC3339` -/

/-- Go `ParseError.Message`, kept symbolic: `bad` is the empty message of `errBad`,
`outOfRange what` is `": " + what + " out of range"`, `extraText rest` is
`": extra text: " + quote(rest)`. -/
inductive parseFailure where
  | bad
  | outOfRange (what : String)
  | extraText (rest : String)
  deriving DecidableEq, Repr

/-- Go `*time.ParseError` for the layout RFC3339: the input, the layout element at which
parsing stopped and the message.  (The field `ValueElem` is not modelled.) -/
structure ParseError where
  Value : String
  LayoutElem : String
  Message : parseFailure
  deriving DecidableEq, Repr

/-- Go `isDigit(s, i)`. -/
def isDigit (s : List Char) (i : Nat) : Bool :=
  match s.get? i with
  | some c => decide (48 ≤ c.toNat ∧ c.toNat ≤ 57)
  | none => false

/-- The value `c - '0'` of a digit byte. -/
def digitVal (c : Char) : Int := (c.toNat : Int) - 48

/-- Go `getnum(s, fixed)`: one or two leading digits (exactly two when `fixed`). -/
def getnum (s : List Char) (fixed : Bool) : Option (Int × List Char) :=
  if !isDigit s 0 then none
  else if !isDigit s 1 then
    if fixed then none
    else
      match s with
      | c :: rest => some (digitVal c, rest)
      | [] => none
  else
    match s with
    | c0 :: c1 :: rest => some (digitVal c0 * 10 + digitVal c1, rest)
    | _ => none

/-- Go `leadingInt(s)` started with accumulator `x`: consume leading digits; fail on
overflow of the accumulator. -/
def leadingInt : List Char → Int → Option (Int × List Char)
  | [], x => some (x, [])
  | c :: rest, x =>
    if c.toNat < 48 ∨ c.toNat > 57 then some (x, c :: rest)
    else if x > 9223372036854775808 / 10 then none
    else
      let x := x * 10 + digitVal c
      if x > 9223372036854775808 then none
      else leadingInt rest x

/-- Go `atoi(s)`: optional sign, then digits up to the end of `s`. -/
def atoi (s : List Char) : Option Int :=
  let neg := decide (s.head? = some '-')
  let s := if s.head? = some '-' ∨ s.head? = some '+' then s.tail else s
  match leadingInt s 0 with
  | some (q, []) => some (if neg then i64 (-(i64 q)) else i64 q)
  | _ => none

/-- Go `commaOrPeriod`. -/
def commaOrPeriod (c : Char) : Bool := c == '.' || c == ','

/-- Go `parseNanoseconds(value, nbytes)` for a `value` that starts with a comma or a
period followed by `nbytes - 1` digits: the first nine digits, scaled to nanoseconds. -/
def parseNanoseconds (value : List Char) (nbytes : Nat) : Option Int :=
  let nbytes := if nbytes > 10 then 10 else nbytes
  match atoi ((value.take nbytes).drop 1) with
  | some ns => some (ns * 10 ^ (10 - nbytes))
  | none => none

/-- What the RFC3339 layout reads from a string before the day-of-month check: the
civil fields, and `zone = none` for the suffix `Z`, else the numeric offset in seconds. -/
structure parsedFields where
  year : Int
  month : Int
  day : Int
  hour : Int
  min : Int
  sec : Int
  nsec : Int
  zone : Option Int

/-- Go `skip(value, prefix)` for a prefix of one byte `c` other than a space, with the
`ParseError` that the element loop builds when it fails. -/
def skipByte (avalue : String) (c : Char) (value : List Char) :
    Except ParseError (List Char) :=
  match value with
  | d :: rest => if d = c then .ok rest else .error ⟨avalue, String.singleton c, .bad⟩
  | [] => .error ⟨avalue, String.singleton c, .bad⟩

/-- Element `2006` (`stdLongYear`): four bytes, the first a digit, read by `atoi`. -/
def elemLongYear (avalue : String) (value : List Char) :
    Except ParseError (Int × List Char) :=
  if value.length < 4 ∨ !isDigit value 0 then .error ⟨avalue, "2006", .bad⟩
  else
    match atoi (value.take 4) with
    | none => .error ⟨avalue, "2006", .bad⟩
    | some year => .ok (year, value.drop 4)

/-- Element `01` (`stdZeroMonth`): two digits in `1..12`. -/
def elemZeroMonth (avalue : String) (value : List Char) :
    Except ParseError (Int × List Char) :=
  match getnum value true with
  | none => .error ⟨avalue, "01", .bad⟩
  | some (month, value) =>
    if month ≤ 0 ∨ 12 < month then .error ⟨avalue, "01", .outOfRange "month"⟩
    else .ok (month, value)

/-- Element `02` (`stdZeroDay`): two digits; the day is validated after the loop. -/
def elemZeroDay (avalue : String) (value : List Char) :
    Except ParseError (Int × List Char) :=
  match getnum value true with
  | none => .error ⟨avalue, "02", .bad⟩
  | some (day, value) => .ok (day, value)

/-- Element `15` (`stdHour`): one or two digits below 24. -/
def elemHour (avalue : String) (value : List Char) : Except ParseError (Int × List Char) :=
  match getnum value false with
  | none => .error ⟨avalue, "15", .bad⟩
  | some (hour, value) =>
    if hour < 0 ∨ 24 ≤ hour then .error ⟨avalue, "15", .outOfRange "hour"⟩
    else .ok (hour, value)

/-- Element `04` (`stdZeroMinute`): two digits below 60. -/
def elemZeroMinute (avalue : String) (value : List Char) :
    Except ParseError (Int × List Char) :=
  match getnum value true with
  | none => .error ⟨avalue, "04", .bad⟩
  | some (min, value) =>
    if min < 0 ∨ 60 ≤ min then .error ⟨avalue, "04", .outOfRange "minute"⟩
    else .ok (min, value)

/-- Element `05` (`stdZeroSecond`): two digits below 60; then the special case of a
fractional second in the input but none in the layout: a comma or period followed by
digits is read as nanoseconds.  (A failed `getnum` ends the element with `errBad`.) -/
def elemZeroSecond (avalue : String) (value : List Char) :
    Except ParseError (Int × Int × List Char) :=
  match getnum value true with
  | none => .error ⟨avalue, "05", .bad⟩
  | some (sec, value) =>
    if sec < 0 ∨ 60 ≤ sec then .error ⟨avalue, "05", .outOfRange "second"⟩
    else
      match value with
      | c :: rest =>
        if commaOrPeriod c ∧ isDigit value 1 then
          let n := 1 + (rest.takeWhile fun d => decide (48 ≤ d.toNat ∧ d.toNat ≤ 57)).length
          match parseNanoseconds value n with
          | some nsec => .ok (sec, nsec, value.drop n)
          | none => .error ⟨avalue, "05", .bad⟩
        else .ok (sec, 0, value)
      | [] => .ok (sec, 0, value)

/-- Element `Z07:00` (`stdISO8601ColonTZ`): `Z`, giving `none`, or sign, two bytes of
hours, a colon and two bytes of minutes read by `atoi`, giving the offset in seconds. -/
def elemZone (avalue : String) (value : List Char) :
    Except ParseError (Option Int × List Char) :=
  if value.head? = some 'Z' then .ok (none, value.tail)
  else if value.length < 6 then .error ⟨avalue, "Z07:00", .bad⟩
  else if value.get? 3 ≠ some ':' then .error ⟨avalue, "Z07:00", .bad⟩
  else
    match atoi ((value.drop 1).take 2), atoi ((value.drop 4).take 2) with
    | some hr, some mm =>
      let zoneOffset := (hr * 60 + mm) * 60 + 0
      if value.head? = some '+' then .ok (some zoneOffset, value.drop 6)
      else if value.head? = some '-' then .ok (some (-zoneOffset), value.drop 6)
      else .error ⟨avalue, "Z07:00", .bad⟩
    | _, _ => .error ⟨avalue, "Z07:00", .bad⟩

/-- The element loop of Go `time.parse` unrolled for the layout
`2006-01-02T15:04:05Z07:00`: year, `-`, month, `-`, day, `T`, hour, `:`, minute, `:`,
second (with an optional fraction), zone, end of input. -/
def parseFields (avalue : String) : Except ParseError parsedFields :=
  (elemLongYear avalue avalue.toList).bind fun y =>
  (skipByte avalue '-' y.2).bind fun v =>
  (elemZeroMonth avalue v).bind fun mo =>
  (skipByte avalue '-' mo.2).bind fun v =>
  (elemZeroDay avalue v).bind fun d =>
  (skipByte avalue 'T' d.2).bind fun v =>
  (elemHour avalue v).bind fun h =>
  (skipByte avalue ':' h.2).bind fun v =>
  (elemZeroMinute avalue v).bind fun mi =>
  (skipByte avalue ':' mi.2).bind fun v =>
  (elemZeroSecond avalue v).bind fun s =>
  (elemZone avalue s.2.2).bind fun z =>
  if z.2.length ≠ 0 then .error ⟨avalue, "", .extraText (String.mk z.2)⟩
  else .ok ⟨y.1, mo.1, d.1, h.1, mi.1, s.1, s.2.1, z.1⟩

/-- Go `time.Parse(time.RFC3339, value)`, with the process-wide `time.Local` as the
parameter `localLoc`.  An input with suffix `Z` is placed in `UTC`; an input with a
numeric offset is placed in `localLoc` when that location has that offset at that instant
and else in a fixed zone of that offset.  (Go uses `zoneOffset = -1` for "no offset read".) -/
def Parse (localLoc : Location) (value : String) : Except ParseError Time :=
  match parseFields value with
  | .error e => .error e
  | .ok f =>
    -- Validate the day of the month.
    if f.day < 1 ∨ f.day > daysIn f.month f.year then
      .error ⟨value, "", .outOfRange "day"⟩
    else
      match f.zone with
      | none => .ok (Date f.year f.month f.day f.hour f.min f.sec f.nsec UTC)
      | some zoneOffset =>
        if zoneOffset ≠ -1 then
          let t := (Date f.year f.month f.day f.hour f.min f.sec f.nsec UTC).addSec
            (i64 (-zoneOffset))
          if (localLoc.lookup t.unixSec).offset = zoneOffset then .ok { t with loc := localLoc }
          else .ok { t with loc := FixedZone zoneOffset }
        else .ok (Date f.year f.month f.day f.hour f.min f.sec f.nsec UTC)

/-! ## terraform-plugin-framework values and schema -/

/-- Framework value `types.Int64`. -/
structure types_Int64 where
  Unknown : Bool
  Null : Bool
  Value : Int
  deriving DecidableEq, Repr

/-- Framework value `types.String`. -/
structure types_String where
  Unknown : Bool
  Null : Bool
  Value : String
  deriving DecidableEq, Repr

/-- Framework value `types.Map` with element type `types.StringType`. -/
structure types_Map where
  Unknown : Bool
  Null : Bool
  Elems : List (String × String)
  deriving DecidableEq, Repr

/-- Framework attribute types used by the schema. -/
inductive attrType where
  | Int64Type
  | StringType
  | MapType (ElemType : attrType)
  deriving DecidableEq, Repr

/-- Framework attribute validators used by the schema: `schemavalidator.AtLeastOneOf` over
root paths, and `int64validator.AtLeast`. -/
inductive AttributeValidator where
  | AtLeastOneOf (paths : List String)
  | AtLeast (min : Int)
  deriving DecidableEq, Repr

/-- Framework plan modifiers used by the schema. -/
inductive AttributePlanModifier where
  | RequiresReplace
  deriving DecidableEq, Repr

/-- Framework `tfsdk.Attribute` (the `Description` text is left out). -/
structure Attribute where
  AttrType : attrType
  Optional : Bool
  Computed : Bool
  Validators : List AttributeValidator
  PlanModifiers : List AttributePlanModifier
  deriving DecidableEq, Repr

/-! ## `resource_time_rotating.go` -/

/-- The validators of an integer `rotation_*` attribute: at least one of the other five
`rotation_*` attributes or this one, and a value of at least 1. -/
def rotationValidators (others : List String) : List AttributeValidator :=
  [.AtLeastOneOf others, .AtLeast 1]

/-- The attributes of `timeRotatingResourceType.GetSchema`, in source order. -/
def GetSchema : List (String × Attribute) :=
  [ ("day", ⟨.Int64Type, false, true, [], []⟩),
    ("rotation_days", ⟨.Int64Type, true, false,
      rotationValidators ["rotation_hours", "rotation_minutes", "rotation_months",
        "rotation_rfc3339", "rotation_years"], []⟩),
    ("rotation_hours", ⟨.Int64Type, true, false,
      rotationValidators ["rotation_days", "rotation_minutes", "rotation_months",
        "rotation_rfc3339", "rotation_years"], []⟩),
    ("rotation_minutes", ⟨.Int64Type, true, false,
      rotationValidators ["rotation_days", "rotation_hours", "rotation_months",
        "rotation_rfc3339", "rotation_years"], []⟩),
    ("rotation_months", ⟨.Int64Type, true, false,
      rotationValidators ["rotation_days", "rotation_hours", "rotation_minutes",
        "rotation_rfc3339", "rotation_years"], []⟩),
    ("rotation_rfc3339", ⟨.StringType, true, true,
      [.AtLeastOneOf ["rotation_days", "rotation_hours", "rotation_minutes",
        "rotation_months", "rotation_years"]], []⟩),
    ("rotation_years", ⟨.Int64Type, true, false,
      rotationValidators ["rotation_days", "rotation_hours", "rotation_minutes",
        "rotation_months", "rotation_rfc3339"], []⟩),
    ("hour", ⟨.Int64Type, false, true, [], []⟩),
    ("triggers", ⟨.MapType .StringType, true, false, [], [.RequiresReplace]⟩),
    ("minute", ⟨.Int64Type, false, true, [], []⟩),
    ("month", ⟨.Int64Type, false, true, [], []⟩),
    ("rfc3339", ⟨.StringType, true, true, [], [.RequiresReplace]⟩),
    ("second", ⟨.Int64Type, false, true, [], []⟩),
    ("unix", ⟨.Int64Type, false, true, [], []⟩),
    ("year", ⟨.Int64Type, false, true, [], []⟩),
    ("id", ⟨.StringType, false, true, [], []⟩) ]

/-- Go `timeRotatingModelV0`. -/
structure timeRotatingModelV0 where
  Day : types_Int64
  RotationDays : types_Int64
  RotationHours : types_Int64
  RotationMinutes : types_Int64
  RotationMonths : types_Int64
  RotationRFC3339 : types_String
  RotationYears : types_Int64
  Hour : types_Int64
  Triggers : types_Map
  Minute : types_Int64
  Month : types_Int64
  RFC3339 : types_String
  Second : types_Int64
  Unix : types_Int64
  Year : types_Int64
  ID : types_String
  deriving DecidableEq, Repr

/-- Go `types.Int64{Value: v}`. -/
def int64Of (v : Int) : types_Int64 := ⟨false, false, v⟩

/-- Go `types.String{Value: v}`. -/
def stringOf (v : String) : types_String := ⟨false, false, v⟩

/-- The zero value `timeRotatingModelV0{}`. -/
def timeRotatingModelV0.empty : timeRotatingModelV0 :=
  ⟨int64Of 0, int64Of 0, int64Of 0, int64Of 0, int64Of 0, stringOf "", int64Of 0, int64Of 0,
    ⟨false, false, []⟩, int64Of 0, int64Of 0, stringOf "", int64Of 0, int64Of 0, int64Of 0,
    stringOf ""⟩

/-- Lines 329-359 of `setRotationValues`: the local variable `rotationTimestamp`, which
starts as the zero `time.Time` and is overwritten by each populated field in the order
days, hours, minutes, months, rfc3339, years; the rfc3339 step returns the parse error.
`int(...)` is the identity on a 64-bit platform; `time.Duration(v) * time.Hour` is an
`int64` product. -/
def rotationTimestamp (localLoc : Location) (plan : timeRotatingModelV0)
    (timestamp : Time) : Except ParseError Time :=
  let r := Time.zero
  let r := if plan.RotationDays.Value ≠ 0 then
      timestamp.AddDate 0 0 plan.RotationDays.Value else r
  let r := if plan.RotationHours.Value ≠ 0 then
      timestamp.Add (i64 (plan.RotationHours.Value * Hour)) else r
  let r := if plan.RotationMinutes.Value ≠ 0 then
      timestamp.Add (i64 (plan.RotationMinutes.Value * Minute)) else r
  let r := if plan.RotationMonths.Value ≠ 0 then
      timestamp.AddDate 0 plan.RotationMonths.Value 0 else r
  let parsed : Except ParseError Time :=
    if plan.RotationRFC3339.Value ≠ "" then Parse localLoc plan.RotationRFC3339.Value
    else .ok r
  match parsed with
  | .error err => .error err
  | .ok r =>
    .ok (if plan.RotationYears.Value ≠ 0 then
      timestamp.AddDate plan.RotationYears.Value 0 0 else r)

/-- Go `setRotationValues(plan, timestamp)`: the pair of return values. -/
def setRotationValues (localLoc : Location) (plan : timeRotatingModelV0)
    (timestamp : Time) : timeRotatingModelV0 × Option ParseError :=
  let formattedTimestamp := timestamp.Format
  match rotationTimestamp localLoc plan timestamp with
  | .error err => (timeRotatingModelV0.empty, some err)
  | .ok rotationTimestamp =>
    let formattedRotationTimestamp := rotationTimestamp.Format
    ({ RotationRFC3339 := stringOf formattedRotationTimestamp
       Triggers := plan.Triggers
       Year := int64Of rotationTimestamp.Year
       Month := int64Of rotationTimestamp.Month
       Day := int64Of rotationTimestamp.Day
       Hour := int64Of rotationTimestamp.Hour
       Minute := int64Of rotationTimestamp.Minute
       Second := int64Of rotationTimestamp.Second
       RotationYears := plan.RotationYears
       RotationMonths := plan.RotationMonths
       RotationDays := plan.RotationDays
       RotationHours := plan.RotationHours
       RotationMinutes := plan.RotationMinutes
       RFC3339 := stringOf formattedTimestamp
       Unix := int64Of rotationTimestamp.Unix
       ID := stringOf formattedTimestamp }, none)

/-- The call `setRotationValues(&plan, timestamp)` as a state transformer on the variable
`plan` that the pointer refers to: the return values and the content of `plan` after the
call.  The function body only reads through the pointer. -/
def setRotationValuesCell (localLoc : Location) (plan : timeRotatingModelV0)
    (timestamp : Time) : (timeRotatingModelV0 × Option ParseError) × timeRotatingModelV0 :=
  (setRotationValues localLoc plan timestamp, plan)

/-- An error diagnostic added by `resp.Diagnostics.AddError(summary, detail)`; of the
detail text, which renders the error with `fmt.Sprintf`, the error value is kept. -/
structure Diagnostic where
  Summary : String
  Original : ParseError
  deriving DecidableEq, Repr

/-- What `Create` leaves in its response: the diagnostics and, when `resp.State.Set` was
reached, the state. -/
structure CreateResourceResponse where
  Diagnostics : List Diagnostic
  State : Option timeRotatingModelV0
  deriving DecidableEq, Repr

/-- Go `timeRotatingResource.Create`, from the point where `req.Plan.Get` has decoded the
plan without error; `now` is the reading of `time.Now()`. -/
def Create (localLoc : Location) (now : Time) (plan : timeRotatingModelV0) :
    CreateResourceResponse :=
  let timestamp := now.toUTC
  let base : Except ParseError Time :=
    if plan.RFC3339.Value ≠ "" then Parse localLoc plan.RFC3339.Value else .ok timestamp
  match base with
  | .error err => ⟨[⟨"Create time rotating error", err⟩], none⟩
  | .ok timestamp =>
    match setRotationValues localLoc plan timestamp with
    | (_, some err) => ⟨[⟨"Create time rotating error", err⟩], none⟩
    | (state, none) => ⟨[], some state⟩

/-- Go `timeRotatingResource.Update`: `panic("implement me")` on every request.  A panic
is the `error` outcome carrying the panic value. -/
def Update (_plan _state : timeRotatingModelV0) : Except String CreateResourceResponse :=
  .error "implement me"

/-! ## Specification-side definitions -/

/-- The precedence rule as the specification words it (a priority list read from the
last field to the first): years, else rfc3339, else months, else minutes, else hours,
else days.  With no field populated the working value is still the zero time. -/
def lastPopulated (localLoc : Location) (plan : timeRotatingModelV0)
    (timestamp : Time) : Option Time :=
  if plan.RotationYears.Value ≠ 0 then
    some (timestamp.AddDate plan.RotationYears.Value 0 0)
  else if plan.RotationRFC3339.Value ≠ "" then
    (Parse localLoc plan.RotationRFC3339.Value).toOption
  else if plan.RotationMonths.Value ≠ 0 then
    some (timestamp.AddDate 0 plan.RotationMonths.Value 0)
  else if plan.RotationMinutes.Value ≠ 0 then
    some (timestamp.Add (i64 (plan.RotationMinutes.Value * Minute)))
  else if plan.RotationHours.Value ≠ 0 then
    some (timestamp.Add (i64 (plan.RotationHours.Value * Hour)))
  else if plan.RotationDays.Value ≠ 0 then
    some (timestamp.AddDate 0 0 plan.RotationDays.Value)
  else some Time.zero

/-- A plan in which only the listed offsets are populated. -/
def planOf (days hours minutes months years : Int) (rfc3339 : String) :
    timeRotatingModelV0 :=
  { timeRotatingModelV0.empty with
    RotationDays := int64Of days
    RotationHours := int64Of hours
    RotationMinutes := int64Of minutes
    RotationMonths := int64Of months
    RotationYears := int64Of years
    RotationRFC3339 := stringOf rfc3339 }

/-- The names of the schema attributes that satisfy `p`. -/
def attributeNames (p : Attribute → Bool) : List String :=
  (GetSchema.filter fun a => p a.2).map fun a => a.1

/-- The date and time part of the RFC3339 rendering of the given civil fields:
`YYYY-MM-DDTHH:MM:SS`. -/
def renderCivil (year month day hour min sec : Int) : List Char :=
  let b := appendInt [] year 4
  let b := appendInt (b ++ ['-']) month 2
  let b := appendInt (b ++ ['-']) day 2
  let b := appendInt (b ++ ['T']) hour 2
  let b := appendInt (b ++ [':']) min 2
  appendInt (b ++ [':']) sec 2

/-- The RFC3339 rendering, at second precision, of the civil fields and of the zone
offset that the string `value` itself carries (`Z` standing for offset 0); the empty string
when `value` is not of the RFC3339 form. -/
def renderOwnZone (value : String) : String :=
  match parseFields value with
  | .ok f => String.mk (appendZone (renderCivil f.year f.month f.day f.hour f.min f.sec)
      (f.zone.getD 0))
  | .error _ => ""

/-! ## Auxiliary definitions for the calendar proofs -/

/-- The first half of `absDate`, on a day count: years elapsed since `absoluteZeroYear`
and the zero-based day within the year. -/
def yearSplit (d : Int) : Int × Int :=
  let n := d / 146097
  let y := 400 * n
  let d := d - 146097 * n
  let n := d / 36524
  let n := n - n / 4
  let y := y + 100 * n
  let d := d - 36524 * n
  let n := d / 1461
  let y := y + 4 * n
  let d := d - 1461 * n
  let n := d / 365
  let n := n - n / 4
  let y := y + n
  let d := d - 365 * n
  (y, d)

/-- The month estimate and its adjustment at the end of `absDate`, for a zero-based day
number of a non-leap year. -/
def monthDayCore (day : Int) : Int × Int :=
  let month := day / 31
  let stop := daysBefore (month + 1)
  if day ≥ stop then (month + 1 + 1, day - stop + 1)
  else (month + 1, day - daysBefore month + 1)

/-- The second half of `absDate`: month and day of month of the zero-based day `yday` of a
year that is or is not a leap year. -/
def monthDay (leap : Bool) (yday : Int) : Int × Int :=
  if leap = true ∧ yday = 31 + 29 - 1 then (2, 29)
  else monthDayCore (if leap = true ∧ yday > 31 + 29 - 1 then yday - 1 else yday)

/-- Days from the start of `absoluteZeroYear` to the start of the year `Y` years later,
in closed form. -/
def yearStart (Y : Int) : Int := 365 * Y + Y / 4 - Y / 100 + Y / 400

/-- The zero-based day of the year of day `d` of month `m`. -/
def yearDay (leap : Bool) (m d : Int) : Int :=
  daysBefore (m - 1) + (if leap = true ∧ m ≥ 3 then 1 else 0) + (d - 1)

/-- The length of month `m`. -/
def monthLen (leap : Bool) (m : Int) : Int :=
  if m = 2 ∧ leap = true then 29 else daysBefore m - daysBefore (m - 1)

/-- The civil date `(year, month, day)` as a day count from the start of
`absoluteZeroYear`, without machine arithmetic; `day` may lie outside the month. -/
def civilDays (year month day : Int) : Int :=
  yearStart (year - absoluteZeroYear) + yearDay (isLeap year) month day

/-- The civil time as a count of seconds on the `abs` scale. -/
def civilAbs (year month day hour min sec : Int) : Int :=
  civilDays year month day * 86400 + (hour * 3600 + min * 60 + sec)

/-! ## Evaluation lemmas -/

theorem i64_of_range (x : Int) (h1 : -9223372036854775808 ≤ x)
    (h2 : x < 9223372036854775808) : i64 x = x := by
  unfold i64; omega

theorem u64_of_range (x : Int) (h1 : 0 ≤ x) (h2 : x < 18446744073709551616) :
    u64 x = x := by
  unfold u64; omega

set_option maxRecDepth 100000 in
theorem parse_2030 (localLoc : Location) :
    Parse localLoc "2030-01-01T00:00:00Z" = .ok (Date 2030 1 1 0 0 0 0 UTC) := by
  rfl

set_option maxRecDepth 100000 in
theorem format_2030 : (Date 2030 1 1 0 0 0 0 UTC).Format = "2030-01-01T00:00:00Z" := by
  decide

set_option maxRecDepth 100000 in
theorem parse_not_a_date (localLoc : Location) :
    Parse localLoc "not-a-date" = .error ⟨"not-a-date", "2006", .bad⟩ := by
  rfl

/-- The rotation step never fails when `rotation_rfc3339` is empty. -/
theorem rotationTimestamp_of_empty (localLoc : Location) (plan : timeRotatingModelV0)
    (timestamp : Time) (h : plan.RotationRFC3339.Value = "") :
    ∃ rot, rotationTimestamp localLoc plan timestamp = .ok rot := by
  simp [rotationTimestamp, h]

/-- The rotation step fails exactly with the error of the parser. -/
theorem rotationTimestamp_error_iff (localLoc : Location) (plan : timeRotatingModelV0)
    (timestamp : Time) (e : ParseError) :
    rotationTimestamp localLoc plan timestamp = .error e ↔
      plan.RotationRFC3339.Value ≠ "" ∧
        Parse localLoc plan.RotationRFC3339.Value = .error e := by
  unfold rotationTimestamp
  by_cases h : plan.RotationRFC3339.Value = ""
  · simp [h]
  · simp only [h, ne_eq, not_false_eq_true, if_true, true_and]
    cases hp : Parse localLoc plan.RotationRFC3339.Value with
    | error e2 => simp
    | ok t => simp

/-- On success of the rotation step, `setRotationValues` is the model built from the
rotation timestamp. -/
theorem setRotationValues_of_ok (localLoc : Location) (plan : timeRotatingModelV0)
    (timestamp rot : Time) (h : rotationTimestamp localLoc plan timestamp = .ok rot) :
    setRotationValues localLoc plan timestamp =
      ({ RotationRFC3339 := stringOf rot.Format
         Triggers := plan.Triggers
         Year := int64Of rot.Year
         Month := int64Of rot.Month
         Day := int64Of rot.Day
         Hour := int64Of rot.Hour
         Minute := int64Of rot.Minute
         Second := int64Of rot.Second
         RotationYears := plan.RotationYears
         RotationMonths := plan.RotationMonths
         RotationDays := plan.RotationDays
         RotationHours := plan.RotationHours
         RotationMinutes := plan.RotationMinutes
         RFC3339 := stringOf timestamp.Format
         Unix := int64Of rot.Unix
         ID := stringOf timestamp.Format }, none) := by
  simp [setRotationValues, h]

/-- On failure of the rotation step, `setRotationValues` returns the empty model and the
error. -/
theorem setRotationValues_of_error (localLoc : Location) (plan : timeRotatingModelV0)
    (timestamp : Time) (e : ParseError)
    (h : rotationTimestamp localLoc plan timestamp = .error e) :
    setRotationValues localLoc plan timestamp = (timeRotatingModelV0.empty, some e) := by
  simp [setRotationValues, h]

/-- Success of `setRotationValues` is success of the rotation step. -/
theorem setRotationValues_ok_iff (localLoc : Location) (plan : timeRotatingModelV0)
    (timestamp : Time) :
    (setRotationValues localLoc plan timestamp).2 = none ↔
      ∃ rot, rotationTimestamp localLoc plan timestamp = .ok rot := by
  cases h : rotationTimestamp localLoc plan timestamp with
  | error e => simp [setRotationValues_of_error _ _ _ _ h]
  | ok rot => simp [setRotationValues_of_ok _ _ _ _ h]

set_option maxRecDepth 100000 in
theorem zero_Format : Time.zero.Format = "0001-01-01T00:00:00Z" := by decide

set_option maxRecDepth 100000 in
theorem zero_Year : Time.zero.Year = 1 := by decide

set_option maxRecDepth 100000 in
theorem zero_Month : Time.zero.Month = 1 := by decide

set_option maxRecDepth 100000 in
theorem zero_Day : Time.zero.Day = 1 := by decide

set_option maxRecDepth 100000 in
theorem zero_Hour : Time.zero.Hour = 0 := by decide

set_option maxRecDepth 100000 in
theorem zero_Minute : Time.zero.Minute = 0 := by decide

set_option maxRecDepth 100000 in
theorem zero_Second : Time.zero.Second = 0 := by decide

set_option maxRecDepth 100000 in
theorem zero_Unix : Time.zero.Unix = -62135596800 := by decide

set_option maxRecDepth 100000 in
theorem format_2023_03_03 :
    ((Date 2023 1 31 0 0 0 0 UTC).AddDate 0 1 0).Format = "2023-03-03T00:00:00Z" := by
  decide

/-! ## Calendar lemmas -/

theorem yearStart_digits (q c f g : Int) (hc : 0 ≤ c ∧ c ≤ 3) (hf : 0 ≤ f ∧ f ≤ 24)
    (hg : 0 ≤ g ∧ g ≤ 3) :
    yearStart (400 * q + 100 * c + 4 * f + g) = 146097 * q + 36524 * c + 1461 * f + 365 * g := by
  unfold yearStart
  have h4 : (400 * q + 100 * c + 4 * f + g) / 4 = 100 * q + 25 * c + f := by omega
  have h100 : (400 * q + 100 * c + 4 * f + g) / 100 = 4 * q + c := by omega
  have h400 : (400 * q + 100 * c + 4 * f + g) / 400 = q := by omega
  rw [h4, h100, h400]; omega

theorem yearSplit_digits (d : Int) (hd : 0 ≤ d) :
    ∃ q c f g k : Int, 0 ≤ q ∧ (0 ≤ c ∧ c ≤ 3) ∧ (0 ≤ f ∧ f ≤ 24) ∧ (0 ≤ g ∧ g ≤ 3) ∧
      0 ≤ k ∧ (k ≤ 364 ∨ (k = 365 ∧ g = 3 ∧ (f ≠ 24 ∨ c = 3))) ∧
      d = 146097 * q + 36524 * c + 1461 * f + 365 * g + k ∧
      yearSplit d = (400 * q + 100 * c + 4 * f + g, k) := by
  have hq : 0 ≤ d / 146097 := by omega
  have hr : 0 ≤ d - 146097 * (d / 146097) ∧ d - 146097 * (d / 146097) < 146097 := by omega
  generalize hrdef : d - 146097 * (d / 146097) = r at hr
  have hc : 0 ≤ r / 36524 - r / 36524 / 4 ∧ r / 36524 - r / 36524 / 4 ≤ 3 := by omega
  have hr2 : 0 ≤ r - 36524 * (r / 36524 - r / 36524 / 4) ∧
      r - 36524 * (r / 36524 - r / 36524 / 4) ≤ 36524 ∧
      (r - 36524 * (r / 36524 - r / 36524 / 4) = 36524 → r / 36524 - r / 36524 / 4 = 3) := by omega
  generalize hcdef : r / 36524 - r / 36524 / 4 = c at hc hr2
  generalize hr2def : r - 36524 * c = r2 at hr2
  have hf : 0 ≤ r2 / 1461 ∧ r2 / 1461 ≤ 24 := by omega
  have hr3 : 0 ≤ r2 - 1461 * (r2 / 1461) ∧ r2 - 1461 * (r2 / 1461) ≤ 1460 ∧
      (r2 / 1461 = 24 → r2 - 1461 * (r2 / 1461) = 1460 → r2 = 36524) := by omega
  generalize hfdef : r2 / 1461 = f at hf hr3
  generalize hr3def : r2 - 1461 * f = r3 at hr3
  have hg : 0 ≤ r3 / 365 - r3 / 365 / 4 ∧ r3 / 365 - r3 / 365 / 4 ≤ 3 := by omega
  have hr4 : 0 ≤ r3 - 365 * (r3 / 365 - r3 / 365 / 4) ∧
      (r3 - 365 * (r3 / 365 - r3 / 365 / 4) ≤ 364 ∨
        (r3 - 365 * (r3 / 365 - r3 / 365 / 4) = 365 ∧ r3 / 365 - r3 / 365 / 4 = 3 ∧ r3 = 1460)) := by
    omega
  generalize hgdef : r3 / 365 - r3 / 365 / 4 = g at hg hr4
  generalize hkdef : r3 - 365 * g = k at hr4
  refine ⟨d / 146097, c, f, g, k, hq, hc, hf, hg, hr4.1, ?_, ?_, ?_⟩
  · omega
  · omega
  · simp only [yearSplit, hrdef, hcdef, hr2def, hfdef, hr3def, hgdef, hkdef]

theorem yearSplit_of_digits (q c f g k : Int) (hc : 0 ≤ c ∧ c ≤ 3)
    (hf : 0 ≤ f ∧ f ≤ 24) (hg : 0 ≤ g ∧ g ≤ 3) (hk : 0 ≤ k)
    (hk2 : k ≤ 364 ∨ (k = 365 ∧ g = 3 ∧ (f ≠ 24 ∨ c = 3))) :
    yearSplit (146097 * q + 36524 * c + 1461 * f + 365 * g + k) =
      (400 * q + 100 * c + 4 * f + g, k) := by
  have h1 : (146097 * q + 36524 * c + 1461 * f + 365 * g + k) / 146097 = q := by omega
  have h2 : 146097 * q + 36524 * c + 1461 * f + 365 * g + k - 146097 * q =
      36524 * c + 1461 * f + 365 * g + k := by omega
  have h3 : (36524 * c + 1461 * f + 365 * g + k) / 36524 -
      (36524 * c + 1461 * f + 365 * g + k) / 36524 / 4 = c := by
    have hc4 : c = 0 ∨ c = 1 ∨ c = 2 ∨ c = 3 := by omega
    rcases hc4 with rfl | rfl | rfl | rfl <;> omega
  have h4 : 36524 * c + 1461 * f + 365 * g + k - 36524 * c = 1461 * f + 365 * g + k := by omega
  have h5 : (1461 * f + 365 * g + k) / 1461 = f := by omega
  have h6 : 1461 * f + 365 * g + k - 1461 * f = 365 * g + k := by omega
  have h7 : (365 * g + k) / 365 - (365 * g + k) / 365 / 4 = g := by
    have hg4 : g = 0 ∨ g = 1 ∨ g = 2 ∨ g = 3 := by omega
    rcases hg4 with rfl | rfl | rfl | rfl <;> omega
  have h8 : 365 * g + k - 365 * g = k := by omega
  simp only [yearSplit, h1, h2, h3, h4, h5, h6, h7, h8]

theorem isLeap_iff (y : Int) :
    isLeap y = true ↔ y % 4 = 0 ∧ (y % 100 ≠ 0 ∨ y % 400 = 0) := by
  simp [isLeap]

theorem daysIn_eq (m y : Int) : daysIn m y = monthLen (isLeap y) m := by
  simp [daysIn, monthLen]

theorem monthDayCore_eq (day j : Int) (hj : day / 31 = j) :
    monthDayCore day =
      if day ≥ daysBefore (j + 1) then (j + 1 + 1, day - daysBefore (j + 1) + 1)
      else (j + 1, day - daysBefore j + 1) := by
  unfold monthDayCore
  simp only [hj]


theorem monthDayCore_case (day j a b c : Int) (h : 0 ≤ day ∧ day ≤ 364) (hj : day / 31 = j)
    (ha : daysBefore j = a) (hb : daysBefore (j + 1) = b) (hc : daysBefore (j + 1 + 1) = c)
    (hnum : 0 ≤ j ∧ j ≤ 11 ∧ a ≤ 31 * j ∧ (31 * j + 31 ≤ c ∧ j ≤ 10 ∨ 364 < b)) :
    ∃ m d, monthDayCore day = (m, d) ∧ 1 ≤ m ∧ m ≤ 12 ∧ 1 ≤ d ∧
      daysBefore (m - 1) + (d - 1) = day ∧ day < daysBefore m := by
  rw [monthDayCore_eq day _ hj, hb, ha]
  by_cases hge : day ≥ b
  · rw [if_pos hge]
    refine ⟨j + 1 + 1, _, rfl, ?_⟩
    have e : j + 1 + 1 - 1 = j + 1 := by omega
    rw [e, hb, hc]
    omega
  · rw [if_neg hge]
    refine ⟨j + 1, _, rfl, ?_⟩
    have e : j + 1 - 1 = j := by omega
    rw [e, hb, ha]
    omega

theorem monthDayCore_spec (day : Int) (h : 0 ≤ day ∧ day ≤ 364) :
    ∃ m d, monthDayCore day = (m, d) ∧ 1 ≤ m ∧ m ≤ 12 ∧ 1 ≤ d ∧
      daysBefore (m - 1) + (d - 1) = day ∧ day < daysBefore m := by
  have hj : day / 31 = 0 ∨ day / 31 = 1 ∨ day / 31 = 2 ∨ day / 31 = 3 ∨ day / 31 = 4 ∨
      day / 31 = 5 ∨ day / 31 = 6 ∨ day / 31 = 7 ∨ day / 31 = 8 ∨ day / 31 = 9 ∨
      day / 31 = 10 ∨ day / 31 = 11 := by omega
  rcases hj with hj | hj | hj | hj | hj | hj | hj | hj | hj | hj | hj | hj
  · exact monthDayCore_case day 0 0 31 59 h hj (by decide) (by decide) (by decide) (by decide)
  · exact monthDayCore_case day 1 31 59 90 h hj (by decide) (by decide) (by decide) (by decide)
  · exact monthDayCore_case day 2 59 90 120 h hj (by decide) (by decide) (by decide) (by decide)
  · exact monthDayCore_case day 3 90 120 151 h hj (by decide) (by decide) (by decide) (by decide)
  · exact monthDayCore_case day 4 120 151 181 h hj (by decide) (by decide) (by decide) (by decide)
  · exact monthDayCore_case day 5 151 181 212 h hj (by decide) (by decide) (by decide) (by decide)
  · exact monthDayCore_case day 6 181 212 243 h hj (by decide) (by decide) (by decide) (by decide)
  · exact monthDayCore_case day 7 212 243 273 h hj (by decide) (by decide) (by decide) (by decide)
  · exact monthDayCore_case day 8 243 273 304 h hj (by decide) (by decide) (by decide) (by decide)
  · exact monthDayCore_case day 9 273 304 334 h hj (by decide) (by decide) (by decide) (by decide)
  · exact monthDayCore_case day 10 304 334 365 h hj (by decide) (by decide) (by decide) (by decide)
  · exact monthDayCore_case day 11 334 365 365 h hj (by decide) (by decide) (by decide) (by decide)

theorem daysBefore_bounds (m : Int) (hm : 1 ≤ m ∧ m ≤ 12) :
    31 * (m - 2) ≤ daysBefore (m - 1) ∧ daysBefore (m - 1) ≤ 31 * (m - 1) ∧
      daysBefore m ≤ 31 * m ∧ 0 ≤ daysBefore (m - 1) ∧ daysBefore m ≤ 365 ∧
      daysBefore (m - 1) + 28 ≤ daysBefore m ∧ daysBefore m ≤ daysBefore (m - 1) + 31 := by
  have hm12 : m = 1 ∨ m = 2 ∨ m = 3 ∨ m = 4 ∨ m = 5 ∨ m = 6 ∨ m = 7 ∨ m = 8 ∨ m = 9 ∨
    m = 10 ∨ m = 11 ∨ m = 12 := by omega
  rcases hm12 with rfl | rfl | rfl | rfl | rfl | rfl | rfl | rfl | rfl | rfl | rfl | rfl <;>
  decide

theorem monthDayCore_unique (day m d : Int) (hm : 1 ≤ m ∧ m ≤ 12) (hd : 1 ≤ d)
    (h1 : daysBefore (m - 1) + (d - 1) = day) (h2 : day < daysBefore m) :
    monthDayCore day = (m, d) := by
  obtain ⟨b1, b2, b3, b4, b5, -, -⟩ := daysBefore_bounds m hm
  have hj : day / 31 = m - 1 ∨ day / 31 = m - 2 := by omega
  rcases hj with hj | hj
  · rw [monthDayCore_eq day _ hj]
    have e : m - 1 + 1 = m := by omega
    rw [e, if_neg (by omega)]
    exact Prod.ext rfl (by show day - daysBefore (m - 1) + 1 = d; omega)
  · rw [monthDayCore_eq day _ hj]
    have e : m - 2 + 1 = m - 1 := by omega
    rw [e, if_pos (by omega)]
    exact Prod.ext (by show m - 1 + 1 = m; omega)
      (by show day - daysBefore (m - 1) + 1 = d; omega)

theorem monthDay_yearDay (leap : Bool) (m d : Int) (hm : 1 ≤ m ∧ m ≤ 12)
    (hd : 1 ≤ d ∧ d ≤ monthLen leap m) :
    monthDay leap (yearDay leap m d) = (m, d) := by
  obtain ⟨b1, b2, b3, b4, b5, b6, b7⟩ := daysBefore_bounds m hm
  have e1 : daysBefore 1 = 31 := by decide
  have e2 : daysBefore 2 = 59 := by decide
  cases leap
  · simp only [monthLen, yearDay, monthDay, Bool.false_eq_true, and_false, false_and,
      if_false, add_zero] at hd ⊢
    exact monthDayCore_unique _ m d hm hd.1 rfl (by omega)
  · by_cases h2 : m = 2
    · subst h2
      simp only [monthLen, and_self, if_true] at hd
      simp only [yearDay, monthDay, true_and]
      norm_num
      rw [e1]
      by_cases h29 : d = 29
      · subst h29; norm_num
      · rw [if_neg (by omega), if_neg (by omega)]
        exact monthDayCore_unique _ 2 d (by omega) hd.1 (by norm_num [e1]) (by rw [e2]; omega)
    · simp only [monthLen, h2, false_and, if_false] at hd
      simp only [yearDay, monthDay, true_and]
      by_cases h3 : m ≥ 3
      · have hge : 59 ≤ daysBefore (m - 1) := by
          have hm10 : m = 3 ∨ m = 4 ∨ m = 5 ∨ m = 6 ∨ m = 7 ∨ m = 8 ∨ m = 9 ∨ m = 10 ∨
            m = 11 ∨ m = 12 := by omega
          rcases hm10 with rfl | rfl | rfl | rfl | rfl | rfl | rfl | rfl | rfl | rfl <;> decide
        rw [if_pos h3, if_neg (by omega), if_pos (by omega)]
        exact monthDayCore_unique _ m d hm hd.1 (by omega) (by omega)
      · have h1 : m = 1 := by omega
        subst h1
        have e0 : daysBefore (1 - 1) = 0 := by decide
        rw [if_neg (by omega), e0, if_neg (by omega), if_neg (by omega)]
        exact monthDayCore_unique _ 1 d (by omega) hd.1 (by rw [e0]; omega) (by omega)

theorem monthDay_spec (leap : Bool) (k : Int) (hk : 0 ≤ k)
    (hk2 : k ≤ 364 ∨ (k = 365 ∧ leap = true)) :
    ∃ m d, monthDay leap k = (m, d) ∧ (1 ≤ m ∧ m ≤ 12) ∧ (1 ≤ d ∧ d ≤ monthLen leap m) ∧
      yearDay leap m d = k := by
  have e1 : daysBefore 1 = 31 := by decide
  have e2 : daysBefore 2 = 59 := by decide
  cases leap
  · have hk3 : k ≤ 364 := by
      rcases hk2 with h | ⟨_, h⟩
      · exact h
      · exact absurd h (by decide)
    obtain ⟨m, d, he, hm1, hm2, hd, h3, h4⟩ := monthDayCore_spec k ⟨hk, hk3⟩
    refine ⟨m, d, ?_, ⟨hm1, hm2⟩, ?_, ?_⟩
    · simp only [monthDay, Bool.false_eq_true, false_and, if_false]; exact he
    · simp only [monthLen, Bool.false_eq_true, and_false, if_false]; omega
    · simp only [yearDay, Bool.false_eq_true, false_and, if_false]; omega
  · by_cases h59 : k = 59
    · subst h59
      refine ⟨2, 29, ?_, by omega, ?_, ?_⟩
      · simp [monthDay]
      · simp [monthLen]
      · simp only [yearDay, true_and]; norm_num [e1]
    · by_cases hlt : k < 59
      · obtain ⟨m, d, he, hm1, hm2, hd, h3, h4⟩ := monthDayCore_spec k ⟨hk, by omega⟩
        obtain ⟨b1, b2, b3, b4, b5, b6, b7⟩ := daysBefore_bounds m ⟨hm1, hm2⟩
        have hm3 : m = 1 ∨ m = 2 := by
          have hm123 : m = 1 ∨ m = 2 ∨ m = 3 := by omega
          rcases hm123 with h | h | h
          · exact Or.inl h
          · exact Or.inr h
          · subst h; norm_num [e2] at h3; omega
        refine ⟨m, d, ?_, ⟨hm1, hm2⟩, ?_, ?_⟩
        · simp only [monthDay, true_and]
          rw [if_neg (by omega), if_neg (by omega)]; exact he
        · rcases hm3 with rfl | rfl
          · have e0 : daysBefore 0 = 0 := by decide
            simp only [monthLen]; norm_num [e0, e1]; norm_num [e0] at h3; rw [e1] at h4; omega
          · simp only [monthLen]; norm_num; norm_num [e1] at h3; omega
        · simp only [yearDay, true_and]
          rw [if_neg (by omega)]; omega
      · have hk4 : k ≤ 365 := by omega
        obtain ⟨m, d, he, hm1, hm2, hd, h3, h4⟩ := monthDayCore_spec (k - 1) ⟨by omega, by omega⟩
        obtain ⟨b1, b2, b3, b4, b5, b6, b7⟩ := daysBefore_bounds m ⟨hm1, hm2⟩
        have hm3 : 3 ≤ m := by
          by_contra hcon
          have hm12 : m = 1 ∨ m = 2 := by omega
          rcases hm12 with rfl | rfl
          · rw [e1] at h4; omega
          · rw [e2] at h4; omega
        refine ⟨m, d, ?_, ⟨hm1, hm2⟩, ?_, ?_⟩
        · simp only [monthDay, true_and]
          rw [if_neg (by omega), if_pos (by omega)]; exact he
        · simp only [monthLen]
          rw [if_neg (by omega)]; omega
        · simp only [yearDay, true_and]
          rw [if_pos hm3]; omega

theorem absDate_eq (abs : Int) :
    absDate abs =
      (i64 ((yearSplit (abs / 86400)).1 + absoluteZeroYear),
        (monthDay (isLeap (i64 ((yearSplit (abs / 86400)).1 + absoluteZeroYear)))
          (yearSplit (abs / 86400)).2).1,
        (monthDay (isLeap (i64 ((yearSplit (abs / 86400)).1 + absoluteZeroYear)))
          (yearSplit (abs / 86400)).2).2,
        (yearSplit (abs / 86400)).2) := by
  simp only [absDate, yearSplit, monthDay, monthDayCore, secondsPerDay, daysPer400Years,
    daysPer100Years, daysPer4Years]
  split_ifs <;> rfl

theorem i64_add_i64 (a b : Int) : i64 (i64 a + b) = i64 (a + b) := by
  unfold i64; omega

theorem i64_add_i64_right (a b : Int) : i64 (a + i64 b) = i64 (a + b) := by
  unfold i64; omega

theorem u64_i64 (a : Int) : u64 (i64 a) = u64 a := by
  unfold u64 i64; omega

theorem yearDay_bounds (leap : Bool) (m d : Int) (hm : 1 ≤ m ∧ m ≤ 12)
    (hd : 1 ≤ d ∧ d ≤ monthLen leap m) :
    0 ≤ yearDay leap m d ∧ (yearDay leap m d ≤ 364 ∨ (yearDay leap m d = 365 ∧ leap = true)) := by
  obtain ⟨b1, b2, b3, b4, b5, b6, b7⟩ := daysBefore_bounds m hm
  cases leap
  · simp only [monthLen, yearDay, Bool.false_eq_true, and_false, false_and, if_false] at hd ⊢
    omega
  · by_cases h2 : m = 2
    · subst h2
      have e1 : daysBefore (2 - 1) = 31 := by decide
      simp only [monthLen, and_self, if_true] at hd
      simp only [yearDay, true_and, e1]
      norm_num
      omega
    · simp only [monthLen, h2, false_and, if_false] at hd
      simp only [yearDay, true_and, and_true]
      split_ifs <;> omega

theorem daysSinceEpoch_eq (y : Int)
    (hy : 0 ≤ y - absoluteZeroYear ∧ y - absoluteZeroYear ≤ 600000000000) :
    daysSinceEpoch y = yearStart (y - absoluteZeroYear) := by
  generalize hY : y - absoluteZeroYear = Y at hy
  have e1 : u64 (i64 Y) = Y := by
    rw [u64_i64, u64_of_range] <;> omega
  have hq : 0 ≤ Y / 400 ∧ Y / 400 ≤ 1500000000 := by omega
  have e2 : u64 (daysPer400Years * (Y / 400)) = 146097 * (Y / 400) := by
    rw [u64_of_range] <;> simp only [daysPer400Years] <;> omega
  have hc : 0 ≤ (Y - 400 * (Y / 400)) / 100 ∧ (Y - 400 * (Y / 400)) / 100 ≤ 3 := by omega
  have hf : 0 ≤ (Y - 400 * (Y / 400) - 100 * ((Y - 400 * (Y / 400)) / 100)) / 4 ∧
      (Y - 400 * (Y / 400) - 100 * ((Y - 400 * (Y / 400)) / 100)) / 4 ≤ 24 := by omega
  have hg : 0 ≤ Y - 400 * (Y / 400) - 100 * ((Y - 400 * (Y / 400)) / 100) -
        4 * ((Y - 400 * (Y / 400) - 100 * ((Y - 400 * (Y / 400)) / 100)) / 4) ∧
      Y - 400 * (Y / 400) - 100 * ((Y - 400 * (Y / 400)) / 100) -
        4 * ((Y - 400 * (Y / 400) - 100 * ((Y - 400 * (Y / 400)) / 100)) / 4) ≤ 3 := by omega
  generalize hqd : Y / 400 = q at *
  generalize hcd : (Y - 400 * q) / 100 = c at *
  generalize hfd : (Y - 400 * q - 100 * c) / 4 = f at *
  generalize hgd : Y - 400 * q - 100 * c - 4 * f = g at *
  have hYd : Y = 400 * q + 100 * c + 4 * f + g := by omega
  simp only [daysSinceEpoch, hY, e1, hqd, hcd, hfd, hgd, e2]
  rw [hYd, yearStart_digits q c f g hc hf hg]
  simp only [daysPer100Years, daysPer4Years]
  rw [u64_of_range (146097 * q + 36524 * c) (by omega) (by omega),
    u64_of_range (146097 * q + 36524 * c + 1461 * f) (by omega) (by omega),
    u64_of_range _ (by omega) (by omega)]

theorem yearStart_nonneg (Y : Int) (h : 0 ≤ Y) : 365 * Y ≤ yearStart Y := by
  unfold yearStart; omega

theorem isLeap_digits (y q c f g : Int) (hc : 0 ≤ c ∧ c ≤ 3) (hf : 0 ≤ f ∧ f ≤ 24)
    (hg : 0 ≤ g ∧ g ≤ 3) (hy : y - absoluteZeroYear = 400 * q + 100 * c + 4 * f + g) :
    isLeap y = true ↔ (g = 3 ∧ (f ≠ 24 ∨ c = 3)) := by
  rw [isLeap_iff]
  simp only [absoluteZeroYear] at hy
  constructor
  · intro h; omega
  · intro h; omega

theorem absDate_civilDays (y m d secs : Int)
    (hy : 0 ≤ y - absoluteZeroYear ∧ y - absoluteZeroYear ≤ 600000000000)
    (hm : 1 ≤ m ∧ m ≤ 12) (hd : 1 ≤ d ∧ d ≤ daysIn m y) (hs : 0 ≤ secs ∧ secs < 86400) :
    absDate (civilDays y m d * 86400 + secs) = (y, m, d, yearDay (isLeap y) m d) := by
  rw [daysIn_eq] at hd
  have hdiv : (civilDays y m d * 86400 + secs) / 86400 = civilDays y m d := by omega
  obtain ⟨hk0, hk1⟩ := yearDay_bounds (isLeap y) m d hm hd
  rw [absDate_eq, hdiv]
  generalize hY : y - absoluteZeroYear = Y at hy
  have hc : 0 ≤ (Y - 400 * (Y / 400)) / 100 ∧ (Y - 400 * (Y / 400)) / 100 ≤ 3 := by omega
  have hf : 0 ≤ (Y - 400 * (Y / 400) - 100 * ((Y - 400 * (Y / 400)) / 100)) / 4 ∧
      (Y - 400 * (Y / 400) - 100 * ((Y - 400 * (Y / 400)) / 100)) / 4 ≤ 24 := by omega
  have hg : 0 ≤ Y - 400 * (Y / 400) - 100 * ((Y - 400 * (Y / 400)) / 100) -
        4 * ((Y - 400 * (Y / 400) - 100 * ((Y - 400 * (Y / 400)) / 100)) / 4) ∧
      Y - 400 * (Y / 400) - 100 * ((Y - 400 * (Y / 400)) / 100) -
        4 * ((Y - 400 * (Y / 400) - 100 * ((Y - 400 * (Y / 400)) / 100)) / 4) ≤ 3 := by omega
  have hq : 0 ≤ Y / 400 := by omega
  generalize hqd : Y / 400 = q at *
  generalize hcd : (Y - 400 * q) / 100 = c at *
  generalize hfd : (Y - 400 * q - 100 * c) / 4 = f at *
  generalize hgd : Y - 400 * q - 100 * c - 4 * f = g at *
  have hYd : Y = 400 * q + 100 * c + 4 * f + g := by omega
  have hleap := isLeap_digits y q c f g hc hf hg (by omega)
  have hsplit : yearSplit (civilDays y m d) = (Y, yearDay (isLeap y) m d) := by
    unfold civilDays
    rw [hY, hYd, yearStart_digits q c f g hc hf hg]
    apply yearSplit_of_digits q c f g _ hc hf hg hk0
    rcases hk1 with h | ⟨h1, h2⟩
    · exact Or.inl h
    · exact Or.inr ⟨h1, hleap.1 h2⟩
  have hyear : i64 (Y + absoluteZeroYear) = y := by
    rw [i64_of_range] <;> simp only [absoluteZeroYear] at hY ⊢ <;> omega
  rw [hsplit]
  simp only [hyear, monthDay_yearDay (isLeap y) m d hm hd]

theorem absDate_spec (abs : Int) (h : 0 ≤ abs ∧ abs < 18446744073709551616) :
    ∃ y m d yd, absDate abs = (y, m, d, yd) ∧
      (0 ≤ y - absoluteZeroYear ∧ y - absoluteZeroYear ≤ 600000000000) ∧
      (1 ≤ m ∧ m ≤ 12) ∧ (1 ≤ d ∧ d ≤ daysIn m y) ∧ civilDays y m d = abs / 86400 := by
  have hd0 : 0 ≤ abs / 86400 ∧ abs / 86400 ≤ 213503982334601 := by omega
  obtain ⟨q, c, f, g, k, hq, hc, hf, hg, hk, hk2, hsum, hsplit⟩ :=
    yearSplit_digits (abs / 86400) hd0.1
  have hY : 0 ≤ 400 * q + 100 * c + 4 * f + g ∧
      400 * q + 100 * c + 4 * f + g ≤ 600000000000 := by omega
  have hyear : i64 (400 * q + 100 * c + 4 * f + g + absoluteZeroYear) =
      400 * q + 100 * c + 4 * f + g + absoluteZeroYear := by
    rw [i64_of_range] <;> simp only [absoluteZeroYear] <;> omega
  have hleap := isLeap_digits (400 * q + 100 * c + 4 * f + g + absoluteZeroYear) q c f g
    hc hf hg (by omega)
  obtain ⟨m, d, hmd, hm, hdd, hyd⟩ :=
    monthDay_spec (isLeap (400 * q + 100 * c + 4 * f + g + absoluteZeroYear)) k hk
      (by
        rcases hk2 with h1 | ⟨h1, h2⟩
        · exact Or.inl h1
        · exact Or.inr ⟨h1, hleap.2 h2⟩)
  refine ⟨400 * q + 100 * c + 4 * f + g + absoluteZeroYear, m, d, k, ?_, by omega, hm, ?_, ?_⟩
  · rw [absDate_eq, hsplit]
    simp only [hyear, hmd]
  · rw [daysIn_eq]; exact hdd
  · unfold civilDays
    have e : 400 * q + 100 * c + 4 * f + g + absoluteZeroYear - absoluteZeroYear =
        400 * q + 100 * c + 4 * f + g := by omega
    rw [e, yearStart_digits q c f g hc hf hg, hyd]
    omega

theorem absClock_eq (days h mi s : Int) (hh : 0 ≤ h ∧ h < 24) (hmi : 0 ≤ mi ∧ mi < 60)
    (hs : 0 ≤ s ∧ s < 60) : absClock (days * 86400 + (h * 3600 + mi * 60 + s)) = (h, mi, s) := by
  have e1 : (days * 86400 + (h * 3600 + mi * 60 + s)) % 86400 = h * 3600 + mi * 60 + s := by
    omega
  have e2 : (h * 3600 + mi * 60 + s) / 3600 = h := by omega
  have e3 : (h * 3600 + mi * 60 + s - h * 3600) / 60 = mi := by omega
  simp only [absClock, secondsPerDay, secondsPerHour, secondsPerMinute, e1, e2, e3]
  exact Prod.ext rfl (Prod.ext rfl (by show h * 3600 + mi * 60 + s - h * 3600 - mi * 60 = s; omega))

theorem absClock_spec (abs : Int) :
    (0 ≤ (absClock abs).1 ∧ (absClock abs).1 < 24) ∧
    (0 ≤ (absClock abs).2.1 ∧ (absClock abs).2.1 < 60) ∧
    (0 ≤ (absClock abs).2.2 ∧ (absClock abs).2.2 < 60) ∧
    abs / 86400 * 86400 +
      ((absClock abs).1 * 3600 + (absClock abs).2.1 * 60 + (absClock abs).2.2) = abs := by
  simp only [absClock, secondsPerDay, secondsPerHour, secondsPerMinute]
  omega

theorem norm_id (hi lo base : Int) (h : 0 ≤ lo ∧ lo < base) : norm hi lo base = (hi, lo) := by
  unfold norm
  simp only [not_lt.2 h.1, if_false, ge_iff_le, not_le.2 h.2]

theorem norm_12 (hi lo : Int) (hhi : -1000000000000 ≤ hi ∧ hi ≤ 1000000000000)
    (hlo : 0 ≤ lo ∧ lo ≤ 100000000000000) : norm hi lo 12 = (hi + lo / 12, lo % 12) := by
  by_cases h : lo < 12
  · rw [norm_id hi lo 12 ⟨hlo.1, h⟩]
    exact Prod.ext (by show hi = hi + lo / 12; omega) (by show lo = lo % 12; omega)
  · unfold norm
    simp only [not_lt.2 hlo.1, if_false, ge_iff_le, not_lt.1 h, if_true]
    have e : Int.tdiv lo 12 = lo / 12 := Int.tdiv_eq_ediv hlo.1 (by decide)
    rw [e]
    exact Prod.ext (by show i64 (hi + lo / 12) = hi + lo / 12; rw [i64_of_range] <;> omega)
      (by
        show i64 (lo - i64 (lo / 12 * 12)) = lo % 12
        rw [i64_of_range (lo / 12 * 12) (by omega) (by omega), i64_of_range] <;> omega)

theorem Date_UTC (y m d h mi s ns : Int)
    (hy : 0 ≤ y - absoluteZeroYear ∧ y - absoluteZeroYear ≤ 600000000000)
    (hm : 1 ≤ m ∧ m ≤ 12) (hd : 1 ≤ d ∧ d ≤ 31) (hh : 0 ≤ h ∧ h < 24)
    (hmi : 0 ≤ mi ∧ mi < 60) (hs : 0 ≤ s ∧ s < 60) (hns : 0 ≤ ns ∧ ns < 1000000000)
    (hsec : civilAbs y m d h mi s + absoluteToInternal < 9223372036854775808) :
    Date y m d h mi s ns UTC = ⟨civilAbs y m d h mi s + absoluteToInternal, ns, UTC⟩ := by
  obtain ⟨b1, b2, b3, b4, b5, b6, b7⟩ := daysBefore_bounds m hm
  have hys := yearStart_nonneg (y - absoluteZeroYear) hy.1
  have e0 : i64 (m - 1) = m - 1 := by rw [i64_of_range] <;> omega
  have e1 : m - 1 + 1 - 1 = m - 1 := by omega
  have e2 : m - 1 + 1 = m := by omega
  have e3 : i64 (d - 1) = d - 1 := by rw [i64_of_range] <;> omega
  have e4 : u64 (d - 1) = d - 1 := by rw [u64_of_range] <;> omega
  simp only [civilAbs, civilDays, yearDay, absoluteToInternal] at hsec ⊢
  unfold Date
  simp only [e0, norm_id y (m - 1) 12 (by omega), norm_id s ns 1000000000 hns,
    norm_id mi s 60 hs, norm_id h mi 60 hmi, norm_id d h 24 hh, daysSinceEpoch_eq y hy,
    e1, e2, e3, e4, UTC, secondsPerDay, secondsPerHour, secondsPerMinute, ne_eq,
    not_true_eq_false, if_false, absoluteToInternal, internalToUnix, unixToInternal]
  have hsec2 : ∀ A B : Int, A = B → (⟨A, ns, ⟨fun _ => ⟨0, alpha, omega⟩⟩⟩ : Time) =
      ⟨B, ns, ⟨fun _ => ⟨0, alpha, omega⟩⟩⟩ := by
    intro A B hAB; rw [hAB]
  apply hsec2
  generalize yearStart (y - absoluteZeroYear) = ys at *
  generalize daysBefore (m - 1) = db at *
  by_cases hl : isLeap y = true ∧ m ≥ 3
  · simp only [hl, and_self, if_true] at hsec ⊢
    unfold u64 i64
    omega
  · simp only [hl, if_false, add_zero] at hsec ⊢
    unfold u64 i64
    omega

theorem Time_abs_of_range (t : Time)
    (h1 : absoluteToInternal ≤ t.sec) (h2 : t.sec ≤ omega)
    (h3 : absoluteToInternal ≤ t.sec + (t.loc.lookup (t.sec + internalToUnix)).offset)
    (h4 : t.sec + (t.loc.lookup (t.sec + internalToUnix)).offset ≤ omega) :
    t.unixSec = t.sec + internalToUnix ∧
    t.locabs = ((t.loc.lookup (t.sec + internalToUnix)).offset,
      t.sec + (t.loc.lookup (t.sec + internalToUnix)).offset + internalToAbsolute) := by
  simp only [absoluteToInternal, omega, internalToUnix, internalToAbsolute] at *
  have e : t.unixSec = t.sec + -62135596800 := by
    simp only [Time.unixSec, internalToUnix]
    rw [i64_of_range] <;> omega
  refine ⟨e, ?_⟩
  unfold Time.locabs
  rw [e]
  simp only [unixToInternal, internalToAbsolute]
  generalize (t.loc.lookup (t.sec + -62135596800)).offset = off at *
  refine Prod.ext rfl ?_
  show u64 (i64 (i64 (t.sec + -62135596800 + off) + i64 (62135596800 + 9223371966579724800))) =
    t.sec + off + 9223371966579724800
  unfold u64 i64
  omega

theorem yearStart_le (Y : Int) (h : 0 ≤ Y) : yearStart Y ≤ 366 * Y := by
  unfold yearStart; omega

theorem daysIn_bounds (m y : Int) (hm : 1 ≤ m ∧ m ≤ 12) :
    28 ≤ daysIn m y ∧ daysIn m y ≤ 31 ∧ (m = 12 → daysIn m y = 31) := by
  obtain ⟨b1, b2, b3, b4, b5, b6, b7⟩ := daysBefore_bounds m hm
  unfold daysIn
  split_ifs with h
  · omega
  · refine ⟨by omega, by omega, ?_⟩
    intro h12; subst h12; decide

/-- A day number past the end of a month before December is the day number reduced by the
length of the month in the following month. -/
theorem civilDays_carry (y m d : Int) (hm : 1 ≤ m ∧ m ≤ 11) :
    civilDays y m d = civilDays y (m + 1) (d - daysIn m y) := by
  have e : m + 1 - 1 = m := by omega
  unfold civilDays yearDay daysIn
  rw [e]
  by_cases h2 : m = 2
  · subst h2
    have e1 : daysBefore (2 - 1) = 31 := by decide
    have e1b : daysBefore 1 = 31 := by decide
    have e2 : daysBefore 2 = 59 := by decide
    cases hl : isLeap y <;> simp [e1, e1b, e2] <;> omega
  · by_cases h3 : m ≥ 3
    · have h4 : m + 1 ≥ 3 := by omega
      simp only [h2, false_and, if_false, h3, h4, and_true]
      split_ifs <;> omega
    · have h1 : m = 1 := by omega
      subst h1
      have e0 : daysBefore (1 - 1) = 0 := by decide
      have e1 : daysBefore 1 = 31 := by decide
      norm_num [e0, e1]
      omega

/-- `Date` depends on its year and month arguments only through their normalisation. -/
theorem Date_norm_month (y mm d h mi s ns : Int) (loc : Location)
    (hy : -1000000000000 ≤ y ∧ y ≤ 1000000000000)
    (hmm : 1 ≤ mm ∧ mm ≤ 100000000000000) :
    Date y mm d h mi s ns loc =
      Date (y + (mm - 1) / 12) ((mm - 1) % 12 + 1) d h mi s ns loc := by
  have e1 : i64 (mm - 1) = mm - 1 := by rw [i64_of_range] <;> omega
  have e2 : i64 ((mm - 1) % 12 + 1 - 1) = (mm - 1) % 12 := by rw [i64_of_range] <;> omega
  have n1 : norm y (mm - 1) 12 = (y + (mm - 1) / 12, (mm - 1) % 12) :=
    norm_12 y (mm - 1) hy (by omega)
  have n2 : norm (y + (mm - 1) / 12) ((mm - 1) % 12) 12 =
      (y + (mm - 1) / 12, (mm - 1) % 12) := norm_id _ _ _ (by omega)
  unfold Date
  simp only [e1, e2, n1, n2]

/-- `AddDate(0, n, 0)` on a UTC timestamp: the civil date with the month advanced by `n`
and normalised, a day past the end of the target month carrying into the next month. -/
theorem AddDate_months_UTC (t : Time) (n : Int) (hloc : t.loc = UTC)
    (hsec : absoluteToInternal ≤ t.sec ∧ t.sec ≤ omega)
    (hnsec : 0 ≤ t.nsec ∧ t.nsec < 1000000000) (hn : 1 ≤ n)
    (hyear : t.Year + (t.Month - 1 + n) / 12 ≤ 9999) :
    t.AddDate 0 n 0 =
      Date t.Year (t.Month + n) t.Day t.Clock.1 t.Clock.2.1 t.Clock.2.2 t.nsec UTC ∧
    (t.AddDate 0 n 0).Clock = t.Clock ∧
    (t.Day ≤ daysIn ((t.Month - 1 + n) % 12 + 1) (t.Year + (t.Month - 1 + n) / 12) →
      (t.AddDate 0 n 0).Date =
        (t.Year + (t.Month - 1 + n) / 12, (t.Month - 1 + n) % 12 + 1, t.Day)) ∧
    (daysIn ((t.Month - 1 + n) % 12 + 1) (t.Year + (t.Month - 1 + n) / 12) < t.Day →
      (t.AddDate 0 n 0).Date =
        (t.Year + (t.Month - 1 + n) / 12, (t.Month - 1 + n) % 12 + 1 + 1,
          t.Day - daysIn ((t.Month - 1 + n) % 12 + 1) (t.Year + (t.Month - 1 + n) / 12))) := by
  have hoff : (t.loc.lookup (t.sec + internalToUnix)).offset = 0 := by rw [hloc]; rfl
  obtain ⟨_, hla⟩ := Time_abs_of_range t hsec.1 hsec.2 (by rw [hoff]; simpa using hsec.1)
    (by rw [hoff]; simpa using hsec.2)
  have habs : t.abs = t.sec + internalToAbsolute := by
    unfold Time.abs; rw [hla, hoff]; simp
  have habs_rng : 0 ≤ t.abs ∧ t.abs < 18446744073709551616 := by
    rw [habs]; simp only [absoluteToInternal, omega, internalToAbsolute] at *; omega
  obtain ⟨y, m, d, yd, hdate, hy, hm, hd, hcd⟩ := absDate_spec t.abs habs_rng
  obtain ⟨hH, hM, hS, hsum⟩ := absClock_spec t.abs
  have hY : t.Year = y := by simp only [Time.Year, hdate]
  have hMo : t.Month = m := by simp only [Time.Month, hdate]
  have hD : t.Day = d := by simp only [Time.Day, hdate]
  have hClock : t.Clock = absClock t.abs := rfl
  simp only [hY, hMo, hD, hClock] at hyear ⊢
  generalize hc1 : (absClock t.abs).1 = H at *
  generalize hc2 : (absClock t.abs).2.1 = M at *
  generalize hc3 : (absClock t.abs).2.2 = S at *
  obtain ⟨hdi1, hdi2, _⟩ := daysIn_bounds m y hm
  have hd31 : 1 ≤ d ∧ d ≤ 31 := by omega
  simp only [absoluteZeroYear] at hy
  have hnb : n ≤ 4000000000000 := by omega
  -- the call made by `AddDate`
  have hAdd : t.AddDate 0 n 0 = Date y (m + n) d H M S t.nsec UTC := by
    unfold Time.AddDate
    simp only [Time.Date, Time.Clock, hdate, hloc, add_zero, hc1, hc2, hc3]
    rw [i64_of_range y (by omega) (by omega), i64_of_range (m + n) (by omega) (by omega),
      i64_of_range d (by omega) (by omega)]
  have e : m + n - 1 = m - 1 + n := by omega
  have hnorm := Date_norm_month y (m + n) d H M S t.nsec UTC (by omega) (by omega)
  rw [e] at hnorm
  have hq : 0 ≤ (m - 1 + n) / 12 := by omega
  have hr : 0 ≤ (m - 1 + n) % 12 ∧ (m - 1 + n) % 12 < 12 := by omega
  generalize (m - 1 + n) / 12 = q at *
  generalize (m - 1 + n) % 12 = r at *
  obtain ⟨hdj1, hdj2, hdj3⟩ := daysIn_bounds (r + 1) (y + q) (by omega)
  have hys := yearStart_le (y + q - absoluteZeroYear) (by simp only [absoluteZeroYear]; omega)
  have hys0 := yearStart_nonneg (y + q - absoluteZeroYear)
    (by simp only [absoluteZeroYear]; omega)
  obtain ⟨b1, b2, b3, b4, b5, b6, b7⟩ := daysBefore_bounds (r + 1) (by omega)
  have hDU := Date_UTC (y + q) (r + 1) d H M S t.nsec
    (by simp only [absoluteZeroYear]; omega) (by omega) hd31 hH hM hS hnsec
    (by
      simp only [civilAbs, civilDays, yearDay, absoluteToInternal, absoluteZeroYear] at hys ⊢
      split_ifs <;> omega)
  have hrot : t.AddDate 0 n 0 =
      ⟨civilAbs (y + q) (r + 1) d H M S + absoluteToInternal, t.nsec, UTC⟩ := by
    rw [hAdd, hnorm, hDU]
  have hca0 : 0 ≤ civilAbs (y + q) (r + 1) d H M S ∧
      civilAbs (y + q) (r + 1) d H M S < 10000000000000000000 := by
    simp only [civilAbs, civilDays, yearDay, absoluteZeroYear] at hys hys0 ⊢
    split_ifs <;> omega
  have hrabs : (t.AddDate 0 n 0).abs = civilAbs (y + q) (r + 1) d H M S := by
    have hoff2 : ((t.AddDate 0 n 0).loc.lookup ((t.AddDate 0 n 0).sec + internalToUnix)).offset
        = 0 := by rw [hrot]; rfl
    obtain ⟨_, hla2⟩ := Time_abs_of_range (t.AddDate 0 n 0)
      (by rw [hrot]; simp only [absoluteToInternal]; omega)
      (by rw [hrot]; simp only [absoluteToInternal, omega]; omega)
      (by rw [hoff2, hrot]; simp only [absoluteToInternal]; omega)
      (by rw [hoff2, hrot]; simp only [absoluteToInternal, omega]; omega)
    unfold Time.abs
    rw [hla2, hoff2, hrot]
    simp only [absoluteToInternal, internalToAbsolute]
    omega
  refine ⟨hAdd, ?_, ?_, ?_⟩
  · show absClock (t.AddDate 0 n 0).abs = absClock t.abs
    rw [hrabs]
    unfold civilAbs
    rw [absClock_eq _ H M S hH hM hS]
    exact Prod.ext hc1.symm (Prod.ext hc2.symm hc3.symm)
  · intro hle
    show ((absDate (t.AddDate 0 n 0).abs).1, (absDate (t.AddDate 0 n 0).abs).2.1,
      (absDate (t.AddDate 0 n 0).abs).2.2.1) = (y + q, r + 1, d)
    rw [hrabs]
    unfold civilAbs
    rw [absDate_civilDays (y + q) (r + 1) d (H * 3600 + M * 60 + S)
      (by simp only [absoluteZeroYear]; omega) (by omega) ⟨hd.1, hle⟩ (by omega)]
  · intro hlt
    have hr11 : r + 1 ≤ 11 := by
      by_contra hcon
      have : r + 1 = 12 := by omega
      have := hdj3 this
      omega
    obtain ⟨hdk1, hdk2, _⟩ := daysIn_bounds (r + 1 + 1) (y + q) (by omega)
    show ((absDate (t.AddDate 0 n 0).abs).1, (absDate (t.AddDate 0 n 0).abs).2.1,
      (absDate (t.AddDate 0 n 0).abs).2.2.1) = (y + q, r + 1 + 1, d - daysIn (r + 1) (y + q))
    rw [hrabs]
    unfold civilAbs
    rw [civilDays_carry (y + q) (r + 1) d (by omega)]
    rw [absDate_civilDays (y + q) (r + 1 + 1) (d - daysIn (r + 1) (y + q))
      (H * 3600 + M * 60 + S)
      (by simp only [absoluteZeroYear]; omega) (by omega) (by omega) (by omega)]
/-! ## Parser lemmas -/

theorem bind_ok {ε α β : Type} {x : Except ε α} {g : α → Except ε β} {b : β}
    (h : x.bind g = .ok b) : ∃ a, x = .ok a ∧ g a = .ok b := by
  cases x with
  | error e => simp [Except.bind] at h
  | ok a => exact ⟨a, rfl, h⟩

theorem digitVal_bounds (c : Char) (h : 48 ≤ c.toNat ∧ c.toNat ≤ 57) :
    0 ≤ digitVal c ∧ digitVal c ≤ 9 := by
  unfold digitVal; omega

theorem isDigit_cons (c : Char) (rest : List Char) :
    isDigit (c :: rest) 0 = decide (48 ≤ c.toNat ∧ c.toNat ≤ 57) := by
  simp [isDigit]

theorem isDigit_cons_succ (c : Char) (rest : List Char) (i : Nat) :
    isDigit (c :: rest) (i + 1) = isDigit rest i := by
  simp [isDigit]

theorem isDigit_nil (i : Nat) : isDigit [] i = false := by
  simp [isDigit]

theorem getnum_bounds (s : List Char) (fixed : Bool) (n : Int) (rest : List Char)
    (h : getnum s fixed = some (n, rest)) : 0 ≤ n ∧ n ≤ 99 := by
  unfold getnum at h
  cases s with
  | nil => simp [isDigit_nil] at h
  | cons c0 s1 =>
    rw [isDigit_cons, isDigit_cons_succ] at h
    by_cases h0 : 48 ≤ c0.toNat ∧ c0.toNat ≤ 57
    · have hb0 := digitVal_bounds c0 h0
      cases s1 with
      | nil =>
        simp only [h0, isDigit_nil] at h
        cases fixed <;> simp at h
        obtain ⟨h1, _⟩ := h
        omega
      | cons c1 s2 =>
        rw [isDigit_cons] at h
        by_cases h1 : 48 ≤ c1.toNat ∧ c1.toNat ≤ 57
        · have hb1 := digitVal_bounds c1 h1
          simp [h0, h1] at h
          obtain ⟨h2, _⟩ := h
          omega
        · simp only [h0, h1] at h
          cases fixed <;> simp at h
          obtain ⟨h2, _⟩ := h
          omega
    · simp [h0] at h

theorem leadingInt_bounds (l : List Char) :
    ∀ (x q : Int), 0 ≤ x → leadingInt l x = some (q, []) →
      x * 10 ^ l.length ≤ q ∧ q < (x + 1) * 10 ^ l.length := by
  induction l with
  | nil =>
    intro x q _ h
    simp [leadingInt] at h
    subst h
    simp
  | cons c rest ih =>
    intro x q hx h
    unfold leadingInt at h
    by_cases hc : c.toNat < 48 ∨ c.toNat > 57
    · simp [hc] at h
    · simp only [hc, if_false] at h
      have hb := digitVal_bounds c (by omega)
      split_ifs at h with h1 h2
      have hx' : 0 ≤ x * 10 + digitVal c := by omega
      obtain ⟨i1, i2⟩ := ih (x * 10 + digitVal c) q hx' h
      have hP : (0 : Int) < 10 ^ rest.length := by positivity
      simp only [List.length_cons, pow_succ]
      constructor
      · nlinarith
      · nlinarith

theorem atoi_bounds (l : List Char) (v : Int) (hl : l.length ≤ 9) (h : atoi l = some v) :
    -(10 ^ l.length) < v ∧ v < 10 ^ l.length ∧ (l.head? ≠ some '-' → 0 ≤ v) := by
  unfold atoi at h
  simp only [] at h
  split at h
  · next q hq =>
    have hlen : (if l.head? = some '-' ∨ l.head? = some '+' then l.tail else l).length
        ≤ l.length := by
      split_ifs
      · simp
      · exact le_refl _
    obtain ⟨i1, i2⟩ := leadingInt_bounds _ 0 q (le_refl 0) hq
    simp only [zero_mul, zero_add, one_mul] at i1 i2
    have hpow : (10 : Int) ^ (if l.head? = some '-' ∨ l.head? = some '+' then l.tail
        else l).length ≤ 10 ^ l.length := pow_le_pow_right₀ (by norm_num) hlen
    have hpow9 : (10 : Int) ^ l.length ≤ 10 ^ 9 := pow_le_pow_right₀ (by norm_num) hl
    have hq9 : q < 1000000000 := by
      have : (10 : Int) ^ 9 = 1000000000 := by norm_num
      omega
    have e1 : i64 q = q := by rw [i64_of_range] <;> omega
    have e2 : i64 (-q) = -q := by rw [i64_of_range] <;> omega
    simp only [Option.some.injEq] at h
    by_cases hneg : l.head? = some '-'
    · simp only [hneg, decide_True, if_true, e1, e2] at h
      subst h
      refine ⟨by omega, by omega, fun hcon => absurd hneg hcon⟩
    · simp only [hneg, decide_False, e1] at h
      simp only [Bool.false_eq_true, if_false] at h
      subst h
      exact ⟨by omega, by omega, fun _ => i1⟩
  · simp at h

theorem parseNanoseconds_bounds (c : Char) (rest : List Char) (n : Nat) (ns : Int)
    (hd : isDigit (c :: rest) 1 = true)
    (h : parseNanoseconds (c :: rest) n = some ns) : 0 ≤ ns ∧ ns < 1000000000 := by
  unfold parseNanoseconds at h
  simp only [] at h
  generalize hnb : (if n > 10 then 10 else n) = nb at h
  have hnb10 : nb ≤ 10 := by
    rw [← hnb]; split_ifs <;> omega
  cases hnb0 : nb with
  | zero =>
    rw [hnb0] at h
    simp [atoi, leadingInt] at h
    rw [← h]
    decide
  | succ k =>
    rw [hnb0] at h hnb10
    simp only [List.take_succ_cons, List.drop_succ_cons, List.drop_zero] at h
    cases ha : atoi (rest.take k) with
    | none => simp [ha] at h
    | some v =>
      simp only [ha, Option.some.injEq] at h
      have hlen : (rest.take k).length ≤ k := by simp
      obtain ⟨i1, i2, i3⟩ := atoi_bounds (rest.take k) v (by omega) ha
      have hhead : (rest.take k).head? ≠ some '-' := by
        cases rest with
        | nil => simp
        | cons r0 rest2 =>
          rw [isDigit_cons_succ, isDigit_cons] at hd
          cases k with
          | zero => simp
          | succ k2 =>
            simp only [List.take_succ_cons, List.head?_cons, ne_eq, Option.some.injEq]
            intro hcon
            subst hcon
            simp at hd
      have hv0 := i3 hhead
      have hpow : (10 : Int) ^ (rest.take k).length ≤ 10 ^ k :=
        pow_le_pow_right₀ (by norm_num) hlen
      have hvk : v < 10 ^ k := by omega
      have hk9 : k ≤ 9 := by omega
      have e : 10 - (k + 1) = 9 - k := by omega
      rw [e] at h
      subst h
      have hP : (0 : Int) < 10 ^ (9 - k) := by positivity
      have hprod : (10 : Int) ^ k * 10 ^ (9 - k) = 1000000000 := by
        rw [← pow_add]
        have : k + (9 - k) = 9 := by omega
        rw [this]; norm_num
      constructor
      · positivity
      · nlinarith

theorem skipByte_ok (avalue : String) (c : Char) (value rest : List Char)
    (h : skipByte avalue c value = .ok rest) : value = c :: rest := by
  unfold skipByte at h
  cases value with
  | nil => simp at h
  | cons d r =>
    by_cases hd : d = c
    · simp [hd] at h; rw [hd, h]
    · simp [hd] at h

theorem elemLongYear_bounds (avalue : String) (value : List Char) (r : Int × List Char)
    (h : elemLongYear avalue value = .ok r) : 0 ≤ r.1 ∧ r.1 ≤ 9999 := by
  unfold elemLongYear at h
  split_ifs at h with h1
  cases ha : atoi (value.take 4) with
  | none => simp [ha] at h
  | some year =>
    simp only [ha, Except.ok.injEq] at h
    subst h
    have hlen : (value.take 4).length ≤ 4 := by simp
    obtain ⟨i1, i2, i3⟩ := atoi_bounds (value.take 4) year (by omega) ha
    have hpow : (10 : Int) ^ (value.take 4).length ≤ 10 ^ 4 :=
      pow_le_pow_right₀ (by norm_num) hlen
    have hhead : (value.take 4).head? ≠ some '-' := by
      cases value with
      | nil => simp
      | cons c0 rest =>
        simp only [List.take_succ_cons, List.head?_cons, ne_eq, Option.some.injEq]
        intro hcon
        subst hcon
        simp [isDigit_cons] at h1
    have := i3 hhead
    have e : (10 : Int) ^ 4 = 10000 := by norm_num
    constructor
    · exact this
    · show year ≤ 9999
      omega

theorem elemZeroMonth_bounds (avalue : String) (value : List Char) (r : Int × List Char)
    (h : elemZeroMonth avalue value = .ok r) : 1 ≤ r.1 ∧ r.1 ≤ 12 := by
  unfold elemZeroMonth at h
  cases hg : getnum value true with
  | none => simp [hg] at h
  | some p =>
    simp only [hg] at h
    split_ifs at h with h1
    simp only [Except.ok.injEq] at h
    subst h
    show 1 ≤ p.1 ∧ p.1 ≤ 12
    omega

theorem elemZeroDay_bounds (avalue : String) (value : List Char) (r : Int × List Char)
    (h : elemZeroDay avalue value = .ok r) : 0 ≤ r.1 ∧ r.1 ≤ 99 := by
  unfold elemZeroDay at h
  cases hg : getnum value true with
  | none => simp [hg] at h
  | some p =>
    obtain ⟨n, rest⟩ := p
    simp only [hg, Except.ok.injEq] at h
    subst h
    exact getnum_bounds _ _ _ _ hg

theorem elemHour_bounds (avalue : String) (value : List Char) (r : Int × List Char)
    (h : elemHour avalue value = .ok r) : 0 ≤ r.1 ∧ r.1 < 24 := by
  unfold elemHour at h
  cases hg : getnum value false with
  | none => simp [hg] at h
  | some p =>
    simp only [hg] at h
    split_ifs at h with h1
    simp only [Except.ok.injEq] at h
    subst h
    show 0 ≤ p.1 ∧ p.1 < 24
    omega

theorem elemZeroMinute_bounds (avalue : String) (value : List Char) (r : Int × List Char)
    (h : elemZeroMinute avalue value = .ok r) : 0 ≤ r.1 ∧ r.1 < 60 := by
  unfold elemZeroMinute at h
  cases hg : getnum value true with
  | none => simp [hg] at h
  | some p =>
    simp only [hg] at h
    split_ifs at h with h1
    simp only [Except.ok.injEq] at h
    subst h
    show 0 ≤ p.1 ∧ p.1 < 60
    omega

theorem elemZeroSecond_bounds (avalue : String) (value : List Char)
    (r : Int × Int × List Char) (h : elemZeroSecond avalue value = .ok r) :
    (0 ≤ r.1 ∧ r.1 < 60) ∧ (0 ≤ r.2.1 ∧ r.2.1 < 1000000000) := by
  unfold elemZeroSecond at h
  split at h
  · simp at h
  · next sec v hg =>
    split at h
    · simp at h
    · next h1 =>
      have hs : 0 ≤ sec ∧ sec < 60 := by omega
      split at h
      · next c rest =>
        split at h
        · next h2 =>
          dsimp only at h
          split at h
          · next ns hp =>
            simp only [Except.ok.injEq] at h
            subst h
            exact ⟨hs, parseNanoseconds_bounds c rest _ ns h2.2 hp⟩
          · simp at h
        · simp only [Except.ok.injEq] at h
          subst h
          exact ⟨hs, by simp⟩
      · simp only [Except.ok.injEq] at h
        subst h
        exact ⟨hs, by simp⟩

theorem elemZone_bounds (avalue : String) (value : List Char) (r : Option Int × List Char)
    (h : elemZone avalue value = .ok r) :
    ∀ z, r.1 = some z → (-362340 ≤ z ∧ z ≤ 362340) ∧ z % 60 = 0 := by
  unfold elemZone at h
  split at h
  · simp only [Except.ok.injEq] at h
    subst h
    intro z hz
    simp at hz
  · split at h
    · simp at h
    · split at h
      · simp at h
      · split at h
        · next hr mm ha hb =>
          have hl1 : ((value.drop 1).take 2).length ≤ 2 := by simp
          have hl2 : ((value.drop 4).take 2).length ≤ 2 := by simp
          obtain ⟨i1, i2, _⟩ := atoi_bounds _ hr (by omega) ha
          obtain ⟨j1, j2, _⟩ := atoi_bounds _ mm (by omega) hb
          have p1 : (10 : Int) ^ ((value.drop 1).take 2).length ≤ 10 ^ 2 :=
            pow_le_pow_right₀ (by norm_num) hl1
          have p2 : (10 : Int) ^ ((value.drop 4).take 2).length ≤ 10 ^ 2 :=
            pow_le_pow_right₀ (by norm_num) hl2
          have e : (10 : Int) ^ 2 = 100 := by norm_num
          split at h
          · simp only [Except.ok.injEq] at h
            subst h
            intro z hz
            simp only [Option.some.injEq] at hz
            subst hz
            omega
          · split at h
            · simp only [Except.ok.injEq] at h
              subst h
              intro z hz
              simp only [Option.some.injEq] at hz
              subst hz
              omega
            · simp at h
        · simp at h

theorem parseFields_bounds (s : String) (f : parsedFields) (h : parseFields s = .ok f) :
    (0 ≤ f.year ∧ f.year ≤ 9999) ∧ (1 ≤ f.month ∧ f.month ≤ 12) ∧
    (0 ≤ f.day ∧ f.day ≤ 99) ∧ (0 ≤ f.hour ∧ f.hour < 24) ∧ (0 ≤ f.min ∧ f.min < 60) ∧
    (0 ≤ f.sec ∧ f.sec < 60) ∧ (0 ≤ f.nsec ∧ f.nsec < 1000000000) ∧
    (∀ z, f.zone = some z → (-362340 ≤ z ∧ z ≤ 362340) ∧ z % 60 = 0) := by
  unfold parseFields at h
  obtain ⟨y, hy, h⟩ := bind_ok h
  obtain ⟨v1, _, h⟩ := bind_ok h
  obtain ⟨mo, hmo, h⟩ := bind_ok h
  obtain ⟨v2, _, h⟩ := bind_ok h
  obtain ⟨d, hd, h⟩ := bind_ok h
  obtain ⟨v3, _, h⟩ := bind_ok h
  obtain ⟨hr, hhr, h⟩ := bind_ok h
  obtain ⟨v4, _, h⟩ := bind_ok h
  obtain ⟨mi, hmi, h⟩ := bind_ok h
  obtain ⟨v5, _, h⟩ := bind_ok h
  obtain ⟨sc, hsc, h⟩ := bind_ok h
  obtain ⟨z, hz, h⟩ := bind_ok h
  split at h
  · simp at h
  · simp only [Except.ok.injEq] at h
    subst h
    exact ⟨elemLongYear_bounds _ _ _ hy, elemZeroMonth_bounds _ _ _ hmo,
      elemZeroDay_bounds _ _ _ hd, elemHour_bounds _ _ _ hhr,
      elemZeroMinute_bounds _ _ _ hmi, (elemZeroSecond_bounds _ _ _ hsc).1,
      (elemZeroSecond_bounds _ _ _ hsc).2, elemZone_bounds _ _ _ hz⟩

theorem Format_eq (t : Time) :
    t.Format = String.mk (appendZone
      (renderCivil (absDate t.locabs.2).1 (absDate t.locabs.2).2.1 (absDate t.locabs.2).2.2.1
        (absClock t.locabs.2).1 (absClock t.locabs.2).2.1 (absClock t.locabs.2).2.2)
      t.locabs.1) := rfl

/-- What `Parse` returns: the civil fields of the input placed in UTC and moved back by
the input's offset, in a location whose offset at that instant is the input's offset. -/
theorem Parse_ok (localLoc : Location) (s : String) (t : Time)
    (h : Parse localLoc s = .ok t) :
    ∃ f, parseFields s = .ok f ∧ (1 ≤ f.day ∧ f.day ≤ daysIn f.month f.year) ∧
      t.sec = civilAbs f.year f.month f.day f.hour f.min f.sec + absoluteToInternal -
        f.zone.getD 0 ∧
      t.nsec = f.nsec ∧
      (t.loc.lookup (t.sec + internalToUnix)).offset = f.zone.getD 0 := by
  unfold Parse at h
  cases hp : parseFields s with
  | error e => simp [hp] at h
  | ok f =>
    simp only [hp] at h
    obtain ⟨hy, hm, _, hh, hmi, hs, hns, hz⟩ := parseFields_bounds s f hp
    split at h
    · simp at h
    · next hday =>
      have hday2 : 1 ≤ f.day ∧ f.day ≤ daysIn f.month f.year := by omega
      obtain ⟨_, hdi2, _⟩ := daysIn_bounds f.month f.year hm
      have hys := yearStart_le (f.year - absoluteZeroYear)
        (by simp only [absoluteZeroYear]; omega)
      have hys0 := yearStart_nonneg (f.year - absoluteZeroYear)
        (by simp only [absoluteZeroYear]; omega)
      obtain ⟨b1, b2, b3, b4, b5, b6, b7⟩ := daysBefore_bounds f.month hm
      have hca : 0 ≤ civilAbs f.year f.month f.day f.hour f.min f.sec ∧
          civilAbs f.year f.month f.day f.hour f.min f.sec < 10000000000000000000 := by
        simp only [civilAbs, civilDays, yearDay, absoluteZeroYear] at hys hys0 ⊢
        split_ifs <;> omega
      have hDU := Date_UTC f.year f.month f.day f.hour f.min f.sec f.nsec
        (by simp only [absoluteZeroYear]; omega) hm (by omega) hh hmi hs hns
        (by simp only [absoluteToInternal]; omega)
      refine ⟨f, rfl, hday2, ?_⟩
      rw [hDU] at h
      generalize civilAbs f.year f.month f.day f.hour f.min f.sec = A at *
      cases hzone : f.zone with
      | none =>
        simp only [hzone, Except.ok.injEq] at h
        subst h
        simp only [Option.getD_none, sub_zero, true_and]
        rfl
      | some z =>
        obtain ⟨hzb, hz60⟩ := hz z hzone
        have hne : z ≠ -1 := by omega
        simp only [hzone, ne_eq, hne, not_false_eq_true, if_true] at h
        have e1 : i64 (-z) = -z := by rw [i64_of_range] <;> omega
        have hadd : (⟨A + absoluteToInternal, f.nsec, UTC⟩ : Time).addSec (-z) =
            ⟨A + absoluteToInternal - z, f.nsec, UTC⟩ := by
          unfold Time.addSec
          have e2 : i64 (A + absoluteToInternal + -z) = A + absoluteToInternal - z := by
            simp only [absoluteToInternal]; rw [i64_of_range] <;> omega
          simp only [e2]
          have e3 : decide (A + absoluteToInternal - z > A + absoluteToInternal) =
              decide (-z > 0) := by
            congr 1
            apply propext
            constructor <;> intro h' <;> omega
          rw [if_pos e3]
        rw [e1, hadd] at h
        have hunix : (⟨A + absoluteToInternal - z, f.nsec, UTC⟩ : Time).unixSec =
            A + absoluteToInternal - z + internalToUnix := by
          show i64 (A + absoluteToInternal - z + internalToUnix) = _
          simp only [absoluteToInternal, internalToUnix]; rw [i64_of_range] <;> omega
        rw [hunix] at h
        simp only [Option.getD_some]
        split at h
        · next hloc =>
          simp only [Except.ok.injEq] at h
          subst h
          exact ⟨rfl, rfl, hloc⟩
        · simp only [Except.ok.injEq] at h
          subst h
          exact ⟨rfl, rfl, rfl⟩

/-- `Format` after `Parse` renders the civil fields and the zone offset of the input. -/
theorem Format_Parse (localLoc : Location) (s : String) (t : Time)
    (h : Parse localLoc s = .ok t) : t.Format = renderOwnZone s := by
  obtain ⟨f, hp, hday, hsec, _, hoff⟩ := Parse_ok localLoc s t h
  obtain ⟨hy, hm, _, hh, hmi, hs, hns, hz⟩ := parseFields_bounds s f hp
  have hzb : -362340 ≤ f.zone.getD 0 ∧ f.zone.getD 0 ≤ 362340 := by
    cases hzone : f.zone with
    | none => simp
    | some z => simpa using (hz z hzone).1
  obtain ⟨_, hdi2, _⟩ := daysIn_bounds f.month f.year hm
  have hys := yearStart_le (f.year - absoluteZeroYear)
    (by simp only [absoluteZeroYear]; omega)
  have hys0 := yearStart_nonneg (f.year - absoluteZeroYear)
    (by simp only [absoluteZeroYear]; omega)
  obtain ⟨b1, b2, b3, b4, b5, b6, b7⟩ := daysBefore_bounds f.month hm
  have hca : 1000000 ≤ civilAbs f.year f.month f.day f.hour f.min f.sec ∧
      civilAbs f.year f.month f.day f.hour f.min f.sec < 10000000000000000000 := by
    simp only [civilAbs, civilDays, yearDay, absoluteZeroYear] at hys hys0 ⊢
    split_ifs <;> omega
  obtain ⟨_, hla⟩ := Time_abs_of_range t
    (by rw [hsec]; simp only [absoluteToInternal]; omega)
    (by rw [hsec]; simp only [absoluteToInternal, omega]; omega)
    (by rw [hoff, hsec]; simp only [absoluteToInternal]; omega)
    (by rw [hoff, hsec]; simp only [absoluteToInternal, omega]; omega)
  have habs : t.locabs = (f.zone.getD 0, civilAbs f.year f.month f.day f.hour f.min f.sec) := by
    rw [hla, hoff, hsec]
    refine Prod.ext rfl ?_
    simp only [absoluteToInternal, internalToAbsolute]
    omega
  rw [Format_eq, habs]
  simp only [renderOwnZone, hp]
  unfold civilAbs
  rw [absDate_civilDays f.year f.month f.day (f.hour * 3600 + f.min * 60 + f.sec)
    (by simp only [absoluteZeroYear]; omega) hm hday (by omega),
    absClock_eq _ f.hour f.min f.sec hh hmi hs]

theorem digitChar_ne_Z (d : Int) (h : 0 ≤ d ∧ d ≤ 9) : digitChar d ≠ 'Z' := by
  have hd : d = 0 ∨ d = 1 ∨ d = 2 ∨ d = 3 ∨ d = 4 ∨ d = 5 ∨ d = 6 ∨ d = 7 ∨ d = 8 ∨ d = 9 := by
    omega
  rcases hd with rfl | rfl | rfl | rfl | rfl | rfl | rfl | rfl | rfl | rfl <;> decide

theorem decimal_getLast (fuel : Nat) (u : Int) (hu : 0 ≤ u) :
    ∃ l d, decimal (fuel + 1) u = l ++ [digitChar d] ∧ 0 ≤ d ∧ d ≤ 9 := by
  unfold decimal
  split_ifs with h
  · exact ⟨_, _, rfl, by omega, by omega⟩
  · exact ⟨[], u, rfl, hu, by omega⟩

theorem appendInt_getLast (b : List Char) (x : Int) (width : Nat) :
    ∃ l d, appendInt b x width = l ++ [digitChar d] ∧ 0 ≤ d ∧ d ≤ 9 := by
  unfold appendInt
  have hu : 0 ≤ (if x < 0 then u64 (-x) else u64 x) := by
    unfold u64; split_ifs <;> omega
  obtain ⟨l, d, hl, hd⟩ := decimal_getLast 19 _ hu
  simp only [hl]
  exact ⟨_, d, (List.append_assoc _ _ _).symm, hd⟩

theorem appendZone_zero (b : List Char) : appendZone b 0 = b ++ ['Z'] := by
  simp [appendZone]

theorem appendZone_getLast (b : List Char) (offset : Int) (h : offset ≠ 0) :
    (appendZone b offset).getLast? ≠ some 'Z' := by
  unfold appendZone
  simp only [h, if_false]
  obtain ⟨l, d, hl, hd⟩ := appendInt_getLast
    (appendInt (if Int.tdiv offset 60 < 0 then b ++ ['-'] else b ++ ['+'])
      (Int.tdiv (if Int.tdiv offset 60 < 0 then i64 (-Int.tdiv offset 60)
        else Int.tdiv offset 60) 60) 2 ++ [':'])
    (Int.tmod (if Int.tdiv offset 60 < 0 then i64 (-Int.tdiv offset 60)
      else Int.tdiv offset 60) 60) 2
  rw [hl]
  simp only [List.getLast?_append, List.getLast?_singleton, Option.or, ne_eq,
    Option.some.injEq]
  exact digitChar_ne_Z d hd

set_option maxRecDepth 100000 in
theorem renderOwnZone_plus0100 :
    renderOwnZone "2023-01-01T01:00:00+01:00" = "2023-01-01T01:00:00+01:00" := by
  decide

set_option maxRecDepth 100000 in
theorem renderOwnZone_Z :
    renderOwnZone "2023-01-01T00:00:00Z" = "2023-01-01T00:00:00Z" := by
  decide
/-! ## Claims -/

/-- C1: for every base timestamp and every plan whose `rotation_rfc3339` is empty or
parses, the rotation timestamp computed by `setRotationValues` is the one of the last
populated field in the order days, hours, minutes, months, rfc3339, years (years, else
the parsed instant, else months, minutes, hours, days), and the output's
`rotation_rfc3339`, calendar fields and `unix` are read off that timestamp.  The plan
`{days:1, years:1}` yields the same `rotation_rfc3339`, calendar fields and `unix` as
`{years:1}`, and `{hours:5, rfc3339:"2030-01-01T00:00:00Z"}` yields
`rotation_rfc3339 = "2030-01-01T00:00:00Z"`. -/
theorem C1_last_populated_field_wins (localLoc : Location) (timestamp : Time)
    (plan : timeRotatingModelV0)
    (hparse : plan.RotationRFC3339.Value = "" ∨
      ∃ t, Parse localLoc plan.RotationRFC3339.Value = .ok t) :
    (∃ rot, rotationTimestamp localLoc plan timestamp = .ok rot ∧
      lastPopulated localLoc plan timestamp = some rot ∧
      (setRotationValues localLoc plan timestamp).2 = none ∧
      (setRotationValues localLoc plan timestamp).1.RotationRFC3339.Value = rot.Format ∧
      (setRotationValues localLoc plan timestamp).1.Year.Value = rot.Year ∧
      (setRotationValues localLoc plan timestamp).1.Month.Value = rot.Month ∧
      (setRotationValues localLoc plan timestamp).1.Day.Value = rot.Day ∧
      (setRotationValues localLoc plan timestamp).1.Hour.Value = rot.Hour ∧
      (setRotationValues localLoc plan timestamp).1.Minute.Value = rot.Minute ∧
      (setRotationValues localLoc plan timestamp).1.Second.Value = rot.Second ∧
      (setRotationValues localLoc plan timestamp).1.Unix.Value = rot.Unix) ∧
    ((setRotationValues localLoc (planOf 1 0 0 0 1 "") timestamp).1.RotationRFC3339 =
        (setRotationValues localLoc (planOf 0 0 0 0 1 "") timestamp).1.RotationRFC3339 ∧
      (setRotationValues localLoc (planOf 1 0 0 0 1 "") timestamp).1.Year =
        (setRotationValues localLoc (planOf 0 0 0 0 1 "") timestamp).1.Year ∧
      (setRotationValues localLoc (planOf 1 0 0 0 1 "") timestamp).1.Month =
        (setRotationValues localLoc (planOf 0 0 0 0 1 "") timestamp).1.Month ∧
      (setRotationValues localLoc (planOf 1 0 0 0 1 "") timestamp).1.Day =
        (setRotationValues localLoc (planOf 0 0 0 0 1 "") timestamp).1.Day ∧
      (setRotationValues localLoc (planOf 1 0 0 0 1 "") timestamp).1.Hour =
        (setRotationValues localLoc (planOf 0 0 0 0 1 "") timestamp).1.Hour ∧
      (setRotationValues localLoc (planOf 1 0 0 0 1 "") timestamp).1.Minute =
        (setRotationValues localLoc (planOf 0 0 0 0 1 "") timestamp).1.Minute ∧
      (setRotationValues localLoc (planOf 1 0 0 0 1 "") timestamp).1.Second =
        (setRotationValues localLoc (planOf 0 0 0 0 1 "") timestamp).1.Second ∧
      (setRotationValues localLoc (planOf 1 0 0 0 1 "") timestamp).1.Unix =
        (setRotationValues localLoc (planOf 0 0 0 0 1 "") timestamp).1.Unix) ∧
    (setRotationValues localLoc (planOf 0 5 0 0 0 "2030-01-01T00:00:00Z")
        timestamp).1.RotationRFC3339.Value = "2030-01-01T00:00:00Z" := by
  refine ⟨?_, ?_, ?_⟩
  · have hrot : ∃ rot, rotationTimestamp localLoc plan timestamp = .ok rot ∧
        lastPopulated localLoc plan timestamp = some rot := by
      unfold rotationTimestamp lastPopulated
      rcases hparse with h | ⟨t, ht⟩
      · by_cases hy : plan.RotationYears.Value = 0 <;>
        by_cases hmo : plan.RotationMonths.Value = 0 <;>
        by_cases hmi : plan.RotationMinutes.Value = 0 <;>
        by_cases hh : plan.RotationHours.Value = 0 <;>
        by_cases hd : plan.RotationDays.Value = 0 <;>
        simp [h, hy, hmo, hmi, hh, hd]
      · by_cases h : plan.RotationRFC3339.Value = ""
        · by_cases hy : plan.RotationYears.Value = 0 <;>
          by_cases hmo : plan.RotationMonths.Value = 0 <;>
          by_cases hmi : plan.RotationMinutes.Value = 0 <;>
          by_cases hh : plan.RotationHours.Value = 0 <;>
          by_cases hd : plan.RotationDays.Value = 0 <;>
          simp [h, hy, hmo, hmi, hh, hd]
        · by_cases hy : plan.RotationYears.Value = 0 <;>
          simp [h, hy, ht, Except.toOption]
    obtain ⟨rot, h1, h2⟩ := hrot
    refine ⟨rot, h1, h2, ?_⟩
    rw [setRotationValues_of_ok _ _ _ _ h1]
    simp [stringOf, int64Of]
  · have ha : rotationTimestamp localLoc (planOf 1 0 0 0 1 "") timestamp =
        .ok (timestamp.AddDate 1 0 0) := by
      simp [rotationTimestamp, planOf, int64Of, stringOf, timeRotatingModelV0.empty]
    have hb : rotationTimestamp localLoc (planOf 0 0 0 0 1 "") timestamp =
        .ok (timestamp.AddDate 1 0 0) := by
      simp [rotationTimestamp, planOf, int64Of, stringOf, timeRotatingModelV0.empty]
    rw [setRotationValues_of_ok _ _ _ _ ha, setRotationValues_of_ok _ _ _ _ hb]
    simp
  · have hc : rotationTimestamp localLoc (planOf 0 5 0 0 0 "2030-01-01T00:00:00Z")
        timestamp = .ok (Date 2030 1 1 0 0 0 0 UTC) := by
      simp [rotationTimestamp, planOf, int64Of, stringOf, timeRotatingModelV0.empty,
        parse_2030]
    rw [setRotationValues_of_ok _ _ _ _ hc]
    simp [stringOf, format_2030]

set_option maxRecDepth 100000 in
/-- Witness for C1: base 2023-01-31T00:00:00Z with the plan `{days:1, months:1}`, whose
`rotation_rfc3339` is empty; the months step, later in the order, decides. -/
theorem C1_last_populated_field_wins_witness :
    (planOf 1 0 0 1 0 "").RotationRFC3339.Value = "" ∧
    (setRotationValues UTC (planOf 1 0 0 1 0 "")
      (Date 2023 1 31 0 0 0 0 UTC)).1.RotationRFC3339.Value = "2023-03-03T00:00:00Z" := by
  refine ⟨rfl, ?_⟩
  obtain ⟨⟨rot, _, h2, _, h4, _⟩, _⟩ :=
    C1_last_populated_field_wins UTC (Date 2023 1 31 0 0 0 0 UTC) (planOf 1 0 0 1 0 "")
      (Or.inl rfl)
  have h5 : lastPopulated UTC (planOf 1 0 0 1 0 "") (Date 2023 1 31 0 0 0 0 UTC) =
      some ((Date 2023 1 31 0 0 0 0 UTC).AddDate 0 1 0) := by
    simp [lastPopulated, planOf, int64Of, stringOf, timeRotatingModelV0.empty]
  rw [h5] at h2
  cases h2
  rw [h4]
  decide

/-- C2: `setRotationValues` returns an error if and only if `rotation_rfc3339` is
non-empty and does not parse; the error is then the parser's own error and the returned
model is the empty model, whatever the other offset fields hold (also `rotation_years`),
and `Create` records the error and sets no state.  `rotation_rfc3339 = "not-a-date"`
fails and produces no model. -/
theorem C2_error_iff_rfc3339_unparsable (localLoc : Location) (timestamp : Time)
    (plan : timeRotatingModelV0) :
    ((setRotationValues localLoc plan timestamp).2 ≠ none ↔
      (plan.RotationRFC3339.Value ≠ "" ∧
        ∃ e, Parse localLoc plan.RotationRFC3339.Value = .error e)) ∧
    (∀ e, plan.RotationRFC3339.Value ≠ "" →
      Parse localLoc plan.RotationRFC3339.Value = .error e →
      setRotationValues localLoc plan timestamp = (timeRotatingModelV0.empty, some e) ∧
      (plan.RFC3339.Value = "" →
        Create localLoc timestamp plan = ⟨[⟨"Create time rotating error", e⟩], none⟩)) ∧
    (plan.RotationRFC3339.Value = "not-a-date" →
      setRotationValues localLoc plan timestamp =
        (timeRotatingModelV0.empty, some ⟨"not-a-date", "2006", .bad⟩)) := by
  have key : ∀ e, plan.RotationRFC3339.Value ≠ "" →
      Parse localLoc plan.RotationRFC3339.Value = .error e →
      ∀ ts, setRotationValues localLoc plan ts = (timeRotatingModelV0.empty, some e) := by
    intro e hne hp ts
    exact setRotationValues_of_error _ _ _ _
      ((rotationTimestamp_error_iff _ _ _ _).2 ⟨hne, hp⟩)
  refine ⟨?_, ?_, ?_⟩
  · constructor
    · intro h
      cases hr : rotationTimestamp localLoc plan timestamp with
      | error e =>
        obtain ⟨h1, h2⟩ := (rotationTimestamp_error_iff _ _ _ _).1 hr
        exact ⟨h1, e, h2⟩
      | ok rot =>
        rw [setRotationValues_of_ok _ _ _ _ hr] at h
        exact absurd rfl h
    · rintro ⟨hne, e, hp⟩
      rw [key e hne hp]
      simp
  · intro e hne hp
    refine ⟨key e hne hp _, ?_⟩
    intro hb
    simp [Create, hb, key e hne hp]
  · intro h
    apply key
    · rw [h]; decide
    · rw [h]; exact parse_not_a_date localLoc

/-- Witness for C2: the plan with every integer offset set to 1 and
`rotation_rfc3339 = "not-a-date"` fails with the parser's error and the empty model. -/
theorem C2_error_iff_rfc3339_unparsable_witness :
    setRotationValues UTC (planOf 1 1 1 1 1 "not-a-date") (Date 2023 1 31 0 0 0 0 UTC) =
      (timeRotatingModelV0.empty, some ⟨"not-a-date", "2006", .bad⟩) :=
  (C2_error_iff_rfc3339_unparsable UTC (Date 2023 1 31 0 0 0 0 UTC)
    (planOf 1 1 1 1 1 "not-a-date")).2.2 rfl

/-- C3: whenever `setRotationValues` succeeds, the output `id` equals the output
`rfc3339` and both are the RFC3339 rendering of the base timestamp; two plans run with
the same base yield the same `id`, whatever their offset fields and triggers. -/
theorem C3_id_is_base_rendering (localLoc : Location) (timestamp : Time)
    (plan plan2 : timeRotatingModelV0)
    (h : (setRotationValues localLoc plan timestamp).2 = none)
    (h2 : (setRotationValues localLoc plan2 timestamp).2 = none) :
    (setRotationValues localLoc plan timestamp).1.ID =
      (setRotationValues localLoc plan timestamp).1.RFC3339 ∧
    (setRotationValues localLoc plan timestamp).1.ID.Value = timestamp.Format ∧
    (setRotationValues localLoc plan timestamp).1.ID =
      (setRotationValues localLoc plan2 timestamp).1.ID := by
  obtain ⟨rot, hr⟩ := (setRotationValues_ok_iff _ _ _).1 h
  obtain ⟨rot2, hr2⟩ := (setRotationValues_ok_iff _ _ _).1 h2
  rw [setRotationValues_of_ok _ _ _ _ hr, setRotationValues_of_ok _ _ _ _ hr2]
  simp [stringOf]

set_option maxRecDepth 100000 in
/-- Witness for C3: base 2023-01-31T00:00:00Z with the plans `{months:1}` and
`{years:2}`. -/
theorem C3_id_is_base_rendering_witness :
    (setRotationValues UTC (planOf 0 0 0 1 0 "") (Date 2023 1 31 0 0 0 0 UTC)).1.ID =
      (setRotationValues UTC (planOf 0 0 0 0 2 "") (Date 2023 1 31 0 0 0 0 UTC)).1.ID :=
  (C3_id_is_base_rendering UTC (Date 2023 1 31 0 0 0 0 UTC) (planOf 0 0 0 1 0 "")
    (planOf 0 0 0 0 2 "") rfl rfl).2.2

/-- C9: whenever `setRotationValues` succeeds, the output's `rotation_days`,
`rotation_hours`, `rotation_minutes`, `rotation_months`, `rotation_years` and `triggers`
are the plan's values, flags included, whichever field determined the rotation
timestamp; and the plan behind the pointer is left as it was. -/
theorem C9_offsets_and_triggers_echoed (localLoc : Location) (timestamp : Time)
    (plan : timeRotatingModelV0)
    (h : (setRotationValues localLoc plan timestamp).2 = none) :
    (setRotationValues localLoc plan timestamp).1.RotationDays = plan.RotationDays ∧
    (setRotationValues localLoc plan timestamp).1.RotationHours = plan.RotationHours ∧
    (setRotationValues localLoc plan timestamp).1.RotationMinutes = plan.RotationMinutes ∧
    (setRotationValues localLoc plan timestamp).1.RotationMonths = plan.RotationMonths ∧
    (setRotationValues localLoc plan timestamp).1.RotationYears = plan.RotationYears ∧
    (setRotationValues localLoc plan timestamp).1.Triggers = plan.Triggers ∧
    (setRotationValuesCell localLoc plan timestamp).1 =
      setRotationValues localLoc plan timestamp ∧
    (setRotationValuesCell localLoc plan timestamp).2 = plan := by
  obtain ⟨rot, hr⟩ := (setRotationValues_ok_iff _ _ _).1 h
  simp [setRotationValuesCell, setRotationValues_of_ok _ _ _ _ hr]

set_option maxRecDepth 100000 in
/-- Witness for C9: a plan with a null `rotation_days`, an unknown `rotation_hours`,
`rotation_years = 3` and one trigger. -/
theorem C9_offsets_and_triggers_echoed_witness :
    (setRotationValues UTC
      { planOf 0 0 0 0 3 "" with
        RotationDays := ⟨false, true, 0⟩
        RotationHours := ⟨true, false, 0⟩
        Triggers := ⟨false, false, [("k", "v")]⟩ }
      (Date 2023 1 31 0 0 0 0 UTC)).1.Triggers = ⟨false, false, [("k", "v")]⟩ :=
  (C9_offsets_and_triggers_echoed UTC (Date 2023 1 31 0 0 0 0 UTC)
    { planOf 0 0 0 0 3 "" with
      RotationDays := ⟨false, true, 0⟩
      RotationHours := ⟨true, false, 0⟩
      Triggers := ⟨false, false, [("k", "v")]⟩ } rfl).2.2.2.2.2.1

/-- C10: when no offset is populated (the five integer offsets are 0 and
`rotation_rfc3339` is empty), `setRotationValues` succeeds for every base timestamp and
returns the zero instant as rotation timestamp: `rotation_rfc3339` is
`"0001-01-01T00:00:00Z"`, year, month and day are 1, hour, minute and second are 0, `unix`
is -62135596800, while `id` and `rfc3339` render the base. -/
theorem C10_no_offset_gives_zero_time (localLoc : Location) (timestamp : Time)
    (plan : timeRotatingModelV0)
    (hdays : plan.RotationDays.Value = 0) (hhours : plan.RotationHours.Value = 0)
    (hminutes : plan.RotationMinutes.Value = 0) (hmonths : plan.RotationMonths.Value = 0)
    (hyears : plan.RotationYears.Value = 0) (hrfc : plan.RotationRFC3339.Value = "") :
    (setRotationValues localLoc plan timestamp).2 = none ∧
    (setRotationValues localLoc plan timestamp).1.RotationRFC3339.Value =
      "0001-01-01T00:00:00Z" ∧
    (setRotationValues localLoc plan timestamp).1.Year.Value = 1 ∧
    (setRotationValues localLoc plan timestamp).1.Month.Value = 1 ∧
    (setRotationValues localLoc plan timestamp).1.Day.Value = 1 ∧
    (setRotationValues localLoc plan timestamp).1.Hour.Value = 0 ∧
    (setRotationValues localLoc plan timestamp).1.Minute.Value = 0 ∧
    (setRotationValues localLoc plan timestamp).1.Second.Value = 0 ∧
    (setRotationValues localLoc plan timestamp).1.Unix.Value = -62135596800 ∧
    (setRotationValues localLoc plan timestamp).1.ID.Value = timestamp.Format ∧
    (setRotationValues localLoc plan timestamp).1.RFC3339.Value = timestamp.Format := by
  have hr : rotationTimestamp localLoc plan timestamp = .ok Time.zero := by
    simp [rotationTimestamp, hdays, hhours, hminutes, hmonths, hyears, hrfc]
  rw [setRotationValues_of_ok _ _ _ _ hr]
  simp [stringOf, int64Of, zero_Format, zero_Year, zero_Month, zero_Day, zero_Hour,
    zero_Minute, zero_Second, zero_Unix]

/-- Witness for C10: the empty plan at base 2023-01-31T00:00:00Z. -/
theorem C10_no_offset_gives_zero_time_witness :
    timeRotatingModelV0.empty.RotationRFC3339.Value = "" ∧
    (setRotationValues UTC timeRotatingModelV0.empty
      (Date 2023 1 31 0 0 0 0 UTC)).1.Unix.Value = -62135596800 :=
  ⟨rfl, (C10_no_offset_gives_zero_time UTC (Date 2023 1 31 0 0 0 0 UTC)
    timeRotatingModelV0.empty rfl rfl rfl rfl rfl rfl).2.2.2.2.2.2.2.2.1⟩

/-- Counterexample to C8 as stated: `rotation_days` is `Optional` and carries no
`RequiresReplace` plan modifier, so not every attribute the caller can set is
replacement-triggering. -/
theorem C8_counterexample_rotation_days :
    ¬ (∀ a ∈ GetSchema, a.2.Optional = true →
      AttributePlanModifier.RequiresReplace ∈ a.2.PlanModifiers) := by
  decide

/-- C8, amended: the attributes the caller can set are `rotation_days`, `rotation_hours`,
`rotation_minutes`, `rotation_months`, `rotation_rfc3339`, `rotation_years`, `triggers`
and `rfc3339`; of all attributes exactly `triggers` and `rfc3339` carry the
`RequiresReplace` plan modifier, the six `rotation_*` attributes carry no plan modifier;
and `Update` panics on every input. -/
theorem C8_only_triggers_and_rfc3339_require_replace :
    attributeNames (fun a => a.Optional) =
      ["rotation_days", "rotation_hours", "rotation_minutes", "rotation_months",
        "rotation_rfc3339", "rotation_years", "triggers", "rfc3339"] ∧
    attributeNames (fun a => decide (AttributePlanModifier.RequiresReplace ∈
      a.PlanModifiers)) = ["triggers", "rfc3339"] ∧
    attributeNames (fun a => a.Optional && decide (a.PlanModifiers = [])) =
      ["rotation_days", "rotation_hours", "rotation_minutes", "rotation_months",
        "rotation_rfc3339", "rotation_years"] ∧
    ∀ plan state, Update plan state = .error "implement me" := by
  refine ⟨by decide, by decide, by decide, ?_⟩
  intro plan state
  rfl

set_option maxRecDepth 100000 in
/-- C6 at its failing input: with base 2023-01-01T00:00:00Z, `rotation_hours = 2562048`
(the product with `time.Hour` exceeds the largest `int64` and wraps to a negative
duration) puts the rotation instant 9223371274 seconds before the base instead of
3600 * 2562048 seconds after it, and `rotation_minutes = 153722868` wraps the same way;
`rotation_days = 106752`, the same span of time on the calendar path, is exact. -/
theorem C6_duration_product_wraps :
    (Create UTC Time.zero { planOf 0 2562048 0 0 0 "" with
        RFC3339 := stringOf "2023-01-01T00:00:00Z" }).State.map (fun s => s.Unix.Value) =
      some (1672531200 - 9223371274) ∧
    (1672531200 - 9223371274 : Int) ≠ 1672531200 + 3600 * 2562048 ∧
    (Create UTC Time.zero { planOf 0 0 153722868 0 0 "" with
        RFC3339 := stringOf "2023-01-01T00:00:00Z" }).State.map (fun s => s.Unix.Value) =
      some (1672531200 - 9223371994) ∧
    (1672531200 - 9223371994 : Int) ≠ 1672531200 + 60 * 153722868 ∧
    (Create UTC Time.zero { planOf 106752 0 0 0 0 "" with
        RFC3339 := stringOf "2023-01-01T00:00:00Z" }).State.map (fun s => s.Unix.Value) =
      some (1672531200 + 3600 * 2562048) := by
  refine ⟨?_, by decide, ?_, by decide, ?_⟩ <;> rfl

/-- C7: calendar addition of months rolls a day overflow over instead of clamping.  For
every UTC base timestamp (representable on Go's absolute time scale) with civil fields
`(y, m, d, H, M, S)` and every `n >= 1` whose target month lies in a year up to 9999, when
`rotation_months = n` decides the rotation timestamp (`rotation_rfc3339` empty,
`rotation_years` 0), that timestamp is `Date(y, m+n, d, H, M, S)`, the normalisation of
the civil date: the time of day is unchanged; the date is day `d` of the target month
when the month has that many days, and otherwise day `d - len` of the following month;
when `d <= 28` the day of month is unchanged and the month index `12*year + month`
advances by exactly `n`.  Base 2023-01-31T00:00:00Z with `months = 1` gives
`rotation_rfc3339 = "2023-03-03T00:00:00Z"`. -/
theorem C7_months_day_overflow_rolls_over (localLoc : Location) (timestamp : Time)
    (plan : timeRotatingModelV0) (n : Int)
    (hloc : timestamp.loc = UTC)
    (hsec : absoluteToInternal ≤ timestamp.sec ∧ timestamp.sec ≤ omega)
    (hnsec : 0 ≤ timestamp.nsec ∧ timestamp.nsec < 1000000000)
    (hn : 1 ≤ n) (hmonths : plan.RotationMonths.Value = n)
    (hrfc : plan.RotationRFC3339.Value = "") (hyears : plan.RotationYears.Value = 0)
    (hyear : timestamp.Year + (timestamp.Month - 1 + n) / 12 ≤ 9999) :
    (∃ rot, rotationTimestamp localLoc plan timestamp = .ok rot ∧
      (setRotationValues localLoc plan timestamp).1.RotationRFC3339.Value = rot.Format ∧
      rot = Date timestamp.Year (timestamp.Month + n) timestamp.Day timestamp.Clock.1
        timestamp.Clock.2.1 timestamp.Clock.2.2 timestamp.nsec UTC ∧
      rot.Clock = timestamp.Clock ∧
      (timestamp.Day ≤ daysIn ((timestamp.Month - 1 + n) % 12 + 1)
          (timestamp.Year + (timestamp.Month - 1 + n) / 12) →
        rot.Date = (timestamp.Year + (timestamp.Month - 1 + n) / 12,
          (timestamp.Month - 1 + n) % 12 + 1, timestamp.Day)) ∧
      (daysIn ((timestamp.Month - 1 + n) % 12 + 1)
          (timestamp.Year + (timestamp.Month - 1 + n) / 12) < timestamp.Day →
        rot.Date = (timestamp.Year + (timestamp.Month - 1 + n) / 12,
          (timestamp.Month - 1 + n) % 12 + 1 + 1,
          timestamp.Day - daysIn ((timestamp.Month - 1 + n) % 12 + 1)
            (timestamp.Year + (timestamp.Month - 1 + n) / 12))) ∧
      (timestamp.Day ≤ 28 →
        rot.Day = timestamp.Day ∧
        12 * rot.Year + rot.Month = 12 * timestamp.Year + timestamp.Month + n)) ∧
    (setRotationValues localLoc (planOf 0 0 0 1 0 "")
      (Date 2023 1 31 0 0 0 0 UTC)).1.RotationRFC3339.Value = "2023-03-03T00:00:00Z" := by
  have hne : n ≠ 0 := by omega
  have hrot : rotationTimestamp localLoc plan timestamp = .ok (timestamp.AddDate 0 n 0) := by
    simp [rotationTimestamp, hrfc, hyears, hne, hmonths]
  obtain ⟨h1, h2, h3, h4⟩ := AddDate_months_UTC timestamp n hloc hsec hnsec hn hyear
  refine ⟨⟨_, hrot, ?_, h1, h2, h3, h4, ?_⟩, ?_⟩
  · rw [setRotationValues_of_ok _ _ _ _ hrot]; rfl
  · intro h28
    have hm : 1 ≤ (timestamp.Month - 1 + n) % 12 + 1 ∧
        (timestamp.Month - 1 + n) % 12 + 1 ≤ 12 := by omega
    obtain ⟨hd1, -, -⟩ := daysIn_bounds ((timestamp.Month - 1 + n) % 12 + 1)
      (timestamp.Year + (timestamp.Month - 1 + n) / 12) hm
    have hdate := h3 (by omega)
    have hY : (timestamp.AddDate 0 n 0).Year =
        timestamp.Year + (timestamp.Month - 1 + n) / 12 := congrArg (fun p => p.1) hdate
    have hM : (timestamp.AddDate 0 n 0).Month = (timestamp.Month - 1 + n) % 12 + 1 :=
      congrArg (fun p => p.2.1) hdate
    have hD : (timestamp.AddDate 0 n 0).Day = timestamp.Day := congrArg (fun p => p.2.2) hdate
    refine ⟨hD, ?_⟩
    rw [hY, hM]
    omega
  · have hr : rotationTimestamp localLoc (planOf 0 0 0 1 0 "") (Date 2023 1 31 0 0 0 0 UTC) =
        .ok ((Date 2023 1 31 0 0 0 0 UTC).AddDate 0 1 0) := by
      simp [rotationTimestamp, planOf, int64Of, stringOf, timeRotatingModelV0.empty]
    rw [setRotationValues_of_ok _ _ _ _ hr]
    exact format_2023_03_03

set_option maxRecDepth 100000 in
/-- Witness for C7: base 2023-01-31T00:00:00Z and `rotation_months = 1`. -/
theorem C7_months_day_overflow_rolls_over_witness :
    (1 : Int) ≤ 1 ∧
    (setRotationValues UTC (planOf 0 0 0 1 0 "")
      (Date 2023 1 31 0 0 0 0 UTC)).1.RotationRFC3339.Value = "2023-03-03T00:00:00Z" :=
  ⟨by decide, (C7_months_day_overflow_rolls_over UTC (Date 2023 1 31 0 0 0 0 UTC)
    (planOf 0 0 0 1 0 "") 1 rfl (by decide) (by decide) (by decide) rfl rfl rfl
    (by decide)).2⟩

set_option maxRecDepth 100000 in
/-- Counterexample to C5 as stated: with `rotation_rfc3339 = "2023-01-01T01:00:00+01:00"`
`setRotationValues` succeeds with `hour = 1` and `unix = 1672531200`; the output fields
read as a UTC civil time convert to 1672534800, one hour after `unix`. -/
theorem C5_counterexample_numeric_offset :
    (setRotationValues UTC (planOf 0 0 0 0 0 "2023-01-01T01:00:00+01:00") Time.zero).2 = none ∧
    (setRotationValues UTC (planOf 0 0 0 0 0 "2023-01-01T01:00:00+01:00")
      Time.zero).1.Hour.Value = 1 ∧
    (setRotationValues UTC (planOf 0 0 0 0 0 "2023-01-01T01:00:00+01:00")
      Time.zero).1.Unix.Value = 1672531200 ∧
    (Date
      (setRotationValues UTC (planOf 0 0 0 0 0 "2023-01-01T01:00:00+01:00")
        Time.zero).1.Year.Value
      (setRotationValues UTC (planOf 0 0 0 0 0 "2023-01-01T01:00:00+01:00")
        Time.zero).1.Month.Value
      (setRotationValues UTC (planOf 0 0 0 0 0 "2023-01-01T01:00:00+01:00")
        Time.zero).1.Day.Value
      (setRotationValues UTC (planOf 0 0 0 0 0 "2023-01-01T01:00:00+01:00")
        Time.zero).1.Hour.Value
      (setRotationValues UTC (planOf 0 0 0 0 0 "2023-01-01T01:00:00+01:00")
        Time.zero).1.Minute.Value
      (setRotationValues UTC (planOf 0 0 0 0 0 "2023-01-01T01:00:00+01:00")
        Time.zero).1.Second.Value 0 UTC).Unix ≠
    (setRotationValues UTC (planOf 0 0 0 0 0 "2023-01-01T01:00:00+01:00")
      Time.zero).1.Unix.Value := by
  refine ⟨by rfl, by decide, by decide, by decide⟩

/-- C5, amended: whenever `setRotationValues` succeeds with a rotation timestamp that is
representable on Go's absolute time scale (as an instant and shifted by its zone offset),
`unix` is the rotation instant in seconds since 1970-01-01T00:00:00Z and `year`, `month`,
`day`, `hour`, `minute`, `second` are a valid civil date and time of day, namely the
civil fields of the rotation instant in the rotation timestamp's own zone: read as a UTC
civil time they convert to `unix` plus the zone offset in force at the rotation
timestamp, hence exactly to `unix` when that offset is 0. -/
theorem C5_fields_are_civil_time_in_own_zone (localLoc : Location) (timestamp : Time)
    (plan : timeRotatingModelV0) (rot : Time)
    (hrot : rotationTimestamp localLoc plan timestamp = .ok rot)
    (hsec : absoluteToInternal ≤ rot.sec ∧ rot.sec ≤ omega)
    (hzone : absoluteToInternal ≤ rot.sec + (rot.loc.lookup rot.Unix).offset ∧
      rot.sec + (rot.loc.lookup rot.Unix).offset ≤ omega) :
    (setRotationValues localLoc plan timestamp).1.Unix.Value = rot.sec + internalToUnix ∧
    (1 ≤ (setRotationValues localLoc plan timestamp).1.Month.Value ∧
      (setRotationValues localLoc plan timestamp).1.Month.Value ≤ 12) ∧
    (1 ≤ (setRotationValues localLoc plan timestamp).1.Day.Value ∧
      (setRotationValues localLoc plan timestamp).1.Day.Value ≤
        daysIn (setRotationValues localLoc plan timestamp).1.Month.Value
          (setRotationValues localLoc plan timestamp).1.Year.Value) ∧
    (0 ≤ (setRotationValues localLoc plan timestamp).1.Hour.Value ∧
      (setRotationValues localLoc plan timestamp).1.Hour.Value < 24) ∧
    (0 ≤ (setRotationValues localLoc plan timestamp).1.Minute.Value ∧
      (setRotationValues localLoc plan timestamp).1.Minute.Value < 60) ∧
    (0 ≤ (setRotationValues localLoc plan timestamp).1.Second.Value ∧
      (setRotationValues localLoc plan timestamp).1.Second.Value < 60) ∧
    (Date (setRotationValues localLoc plan timestamp).1.Year.Value
      (setRotationValues localLoc plan timestamp).1.Month.Value
      (setRotationValues localLoc plan timestamp).1.Day.Value
      (setRotationValues localLoc plan timestamp).1.Hour.Value
      (setRotationValues localLoc plan timestamp).1.Minute.Value
      (setRotationValues localLoc plan timestamp).1.Second.Value 0 UTC).Unix =
      (setRotationValues localLoc plan timestamp).1.Unix.Value +
        (rot.loc.lookup rot.Unix).offset ∧
    ((rot.loc.lookup rot.Unix).offset = 0 →
      (Date (setRotationValues localLoc plan timestamp).1.Year.Value
        (setRotationValues localLoc plan timestamp).1.Month.Value
        (setRotationValues localLoc plan timestamp).1.Day.Value
        (setRotationValues localLoc plan timestamp).1.Hour.Value
        (setRotationValues localLoc plan timestamp).1.Minute.Value
        (setRotationValues localLoc plan timestamp).1.Second.Value 0 UTC).Unix =
        (setRotationValues localLoc plan timestamp).1.Unix.Value) := by
  have hu : rot.Unix = rot.sec + internalToUnix := by
    show i64 (rot.sec + internalToUnix) = rot.sec + internalToUnix
    simp only [absoluteToInternal, omega, internalToUnix] at *
    rw [i64_of_range] <;> omega
  rw [hu] at hzone
  obtain ⟨_, hla⟩ := Time_abs_of_range rot hsec.1 hsec.2 hzone.1 hzone.2
  rw [setRotationValues_of_ok _ _ _ _ hrot]
  simp only [int64Of, hu]
  generalize hoff : (rot.loc.lookup (rot.sec + internalToUnix)).offset = off at *
  have habs : rot.abs = rot.sec + off + internalToAbsolute := by
    unfold Time.abs; rw [hla]
  have habs_rng : 0 ≤ rot.abs ∧ rot.abs < 18446744073709551616 := by
    rw [habs]; simp only [absoluteToInternal, omega, internalToAbsolute] at *; omega
  obtain ⟨y, m, d, yd, hdate, hy, hm, hd, hcd⟩ := absDate_spec rot.abs habs_rng
  have hY : rot.Year = y := by simp only [Time.Year, hdate]
  have hMo : rot.Month = m := by simp only [Time.Month, hdate]
  have hD : rot.Day = d := by simp only [Time.Day, hdate]
  obtain ⟨hdi1, hdi2, _⟩ := daysIn_bounds m y hm
  have hH : 0 ≤ rot.Hour ∧ rot.Hour < 24 := by
    simp only [Time.Hour, secondsPerDay, secondsPerHour]; omega
  have hM : 0 ≤ rot.Minute ∧ rot.Minute < 60 := by
    simp only [Time.Minute, secondsPerHour, secondsPerMinute]; omega
  have hS : 0 ≤ rot.Second ∧ rot.Second < 60 := by
    simp only [Time.Second, secondsPerMinute]; omega
  have hsum : rot.abs / 86400 * 86400 + (rot.Hour * 3600 + rot.Minute * 60 + rot.Second) =
      rot.abs := by
    simp only [Time.Hour, Time.Minute, Time.Second, secondsPerDay, secondsPerHour,
      secondsPerMinute]
    omega
  rw [hY, hMo, hD]
  have hca : civilAbs y m d rot.Hour rot.Minute rot.Second = rot.abs := by
    unfold civilAbs; rw [hcd]; exact hsum
  have hDU := Date_UTC y m d rot.Hour rot.Minute rot.Second 0 hy hm (by omega) hH hM hS
    (by decide)
    (by rw [hca, habs]; simp only [absoluteToInternal, omega, internalToAbsolute] at *; omega)
  have hconv : (Date y m d rot.Hour rot.Minute rot.Second 0 UTC).Unix =
      rot.sec + internalToUnix + off := by
    rw [hDU, hca, habs]
    show i64 (rot.sec + off + internalToAbsolute + absoluteToInternal + internalToUnix) = _
    simp only [absoluteToInternal, omega, internalToUnix, internalToAbsolute] at *
    rw [i64_of_range] <;> omega
  refine ⟨trivial, hm, hd, hH, hM, hS, hconv, ?_⟩
  intro h0
  rw [hconv, h0, add_zero]

set_option maxRecDepth 100000 in
/-- Witness for C5: the plan `{rotation_rfc3339: "2023-01-01T01:00:00+01:00"}`; the fields
convert to `unix + 3600`. -/
theorem C5_fields_are_civil_time_in_own_zone_witness :
    (Date 2023 1 1 1 0 0 0 UTC).Unix = 1672531200 + 3600 := by
  have h := (C5_fields_are_civil_time_in_own_zone UTC Time.zero
    (planOf 0 0 0 0 0 "2023-01-01T01:00:00+01:00")
    ⟨63808128000, 0, FixedZone 3600⟩ (by rfl) (by decide) (by decide)).2.2.2.2.2.2.1
  exact h

set_option maxRecDepth 100000 in
/-- Counterexample to C4 as stated: the base string `"2023-01-01T01:00:00+01:00"` yields
`rfc3339 = id = "2023-01-01T01:00:00+01:00"`, not the UTC rendering
`"2023-01-01T00:00:00Z"`, and the rotation string `"2030-01-01T01:00:00+01:00"` yields
`rotation_rfc3339 = "2030-01-01T01:00:00+01:00"`. -/
theorem C4_counterexample_offset_kept :
    (Create UTC Time.zero { planOf 0 0 0 0 0 "2030-01-01T01:00:00+01:00" with
        RFC3339 := stringOf "2023-01-01T01:00:00+01:00" }).State.map
      (fun s => (s.RFC3339.Value, s.ID.Value, s.RotationRFC3339.Value)) =
      some ("2023-01-01T01:00:00+01:00", "2023-01-01T01:00:00+01:00",
        "2030-01-01T01:00:00+01:00") ∧
    "2023-01-01T01:00:00+01:00" ≠ "2023-01-01T00:00:00Z" := by
  refine ⟨by rfl, by decide⟩

/-- C4, amended: for every supplied base RFC3339 string and every supplied
`rotation_rfc3339` string that parse, `Create` succeeds and the `rfc3339` and `id` strings
(and `rotation_rfc3339`, when `rotation_years` is 0) are the second-precision RFC3339
rendering of the civil date and time that the input string itself carries, with the zone
offset that the input carries: the instant is kept and the zone is not normalised to UTC.
The rendering ends in `Z` when the carried offset is zero and does not end in `Z`
otherwise; the base string `"2023-01-01T01:00:00+01:00"` yields
`rfc3339 = id = "2023-01-01T01:00:00+01:00"` and `"2023-01-01T00:00:00Z"` yields
`"2023-01-01T00:00:00Z"`. -/
theorem C4_rendered_in_zone_of_input (localLoc : Location) (now : Time)
    (plan : timeRotatingModelV0) (tb : Time)
    (hbase : plan.RFC3339.Value ≠ "")
    (hpb : Parse localLoc plan.RFC3339.Value = .ok tb)
    (hrot : plan.RotationRFC3339.Value = "" ∨
      ∃ tr, Parse localLoc plan.RotationRFC3339.Value = .ok tr) :
    (∃ state, Create localLoc now plan = ⟨[], some state⟩ ∧
      state.RFC3339.Value = renderOwnZone plan.RFC3339.Value ∧
      state.ID.Value = renderOwnZone plan.RFC3339.Value ∧
      (plan.RotationRFC3339.Value ≠ "" → plan.RotationYears.Value = 0 →
        state.RotationRFC3339.Value = renderOwnZone plan.RotationRFC3339.Value)) ∧
    (∀ s f, parseFields s = .ok f →
      (f.zone.getD 0 = 0 → renderOwnZone s =
        String.mk (renderCivil f.year f.month f.day f.hour f.min f.sec ++ ['Z'])) ∧
      (f.zone.getD 0 ≠ 0 → (renderOwnZone s).data.getLast? ≠ some 'Z')) ∧
    renderOwnZone "2023-01-01T01:00:00+01:00" = "2023-01-01T01:00:00+01:00" ∧
    renderOwnZone "2023-01-01T00:00:00Z" = "2023-01-01T00:00:00Z" := by
  refine ⟨?_, ?_, renderOwnZone_plus0100, renderOwnZone_Z⟩
  · have hr : ∃ rot, rotationTimestamp localLoc plan tb = .ok rot ∧
        (plan.RotationRFC3339.Value ≠ "" → plan.RotationYears.Value = 0 →
          Parse localLoc plan.RotationRFC3339.Value = .ok rot) := by
      unfold rotationTimestamp
      rcases hrot with h | ⟨tr, htr⟩
      · simp [h]
      · by_cases h : plan.RotationRFC3339.Value = ""
        · simp [h]
        · by_cases hy : plan.RotationYears.Value = 0 <;> simp [h, hy, htr]
    obtain ⟨rot, hrot1, hrot2⟩ := hr
    have hset := setRotationValues_of_ok _ _ _ _ hrot1
    refine ⟨(setRotationValues localLoc plan tb).1, ?_, ?_, ?_, ?_⟩
    · simp only [Create, hbase, ne_eq, not_false_eq_true, if_true, hpb, hset]
    · rw [hset]; exact Format_Parse localLoc _ tb hpb
    · rw [hset]; exact Format_Parse localLoc _ tb hpb
    · intro h1 h2
      rw [hset]; exact Format_Parse localLoc _ rot (hrot2 h1 h2)
  · intro s f hp
    constructor
    · intro h0
      simp only [renderOwnZone, hp, h0, appendZone_zero]
    · intro hne
      simp only [renderOwnZone, hp]
      exact appendZone_getLast _ _ hne

set_option maxRecDepth 100000 in
/-- Witness for C4: base string `"2023-01-01T01:00:00+01:00"` and rotation string
`"2030-01-01T00:00:00Z"`, with the host in UTC. -/
theorem C4_rendered_in_zone_of_input_witness :
    ∃ state, Create UTC Time.zero { planOf 0 0 0 0 0 "2030-01-01T00:00:00Z" with
        RFC3339 := stringOf "2023-01-01T01:00:00+01:00" } = ⟨[], some state⟩ ∧
      state.RFC3339.Value = renderOwnZone "2023-01-01T01:00:00+01:00" :=
  let h := (C4_rendered_in_zone_of_input UTC Time.zero
    { planOf 0 0 0 0 0 "2030-01-01T00:00:00Z" with
      RFC3339 := stringOf "2023-01-01T01:00:00+01:00" }
    ⟨63808128000, 0, FixedZone 3600⟩ (by decide) (by rfl)
    (Or.inr ⟨Date 2030 1 1 0 0 0 0 UTC, by rfl⟩)).1
  match h with
  | ⟨state, h1, h2, _⟩ => ⟨state, h1, h2⟩

end TimeRotating
